import Mathlib

/-!
Verification development for the rust-ray-tracer repository.

The geometry code of the repository computes over `f64`.  The embedding uses
exact rationals (`ℚ`) for the arithmetic that stays rational (additions,
subtractions, multiplications, guarded divisions), and a dedicated type `F64`
(rationals extended with `+inf`, `-inf` and `NaN`) exactly where the source
relies on IEEE division-by-zero semantics: the slab test `Ray::intersect_aabb`
divides by direction components that may be zero, and the spec states that the
resulting infinities "must compare correctly under the min/max reductions".
`F64.fdiv`, `F64.fmin`, `F64.fmax`, `F64.flt`, `F64.fle` mirror the IEEE
behaviour used by the source (`f64::min`/`f64::max` ignore a NaN argument and
comparisons with NaN are false).  Square roots (`f64::sqrt`, reached through
`Vector3d::length`) are modelled by `ratSqrt`, which is exact on rationals
whose numerator and denominator are perfect squares; every theorem below that
evaluates a length does so at such a value, and no theorem depends on the
value of `ratSqrt` elsewhere.

Concrete evaluations (witnesses and counterexamples) go through `decide`;
the rational operations of the current Batteries are `@[irreducible]`, which
only hides them from unfolding, so their reducibility is restored first.
-/

set_option allowUnsafeReducibility true in
attribute [semireducible] Rat.add Rat.sub Rat.mul Rat.inv

/-- Extended floating-point scalar: a rational, one of the two infinities, or
NaN.  Models the `f64` values produced by the slab divisions in
`Ray::intersect_aabb` (src/collision/ray.rs). -/
inductive F64 where
  | nan : F64
  | ninf : F64
  | pinf : F64
  | fin : ℚ → F64
deriving DecidableEq

/-- IEEE strict less-than on `F64`: any comparison involving NaN is false. -/
def F64.flt : F64 → F64 → Bool
  | F64.nan, _ => false
  | _, F64.nan => false
  | F64.ninf, F64.ninf => false
  | F64.ninf, _ => true
  | _, F64.ninf => false
  | F64.pinf, _ => false
  | F64.fin _, F64.pinf => true
  | F64.fin a, F64.fin b => decide (a < b)

/-- IEEE less-or-equal on `F64`: any comparison involving NaN is false. -/
def F64.fle : F64 → F64 → Bool
  | F64.nan, _ => false
  | _, F64.nan => false
  | F64.ninf, _ => true
  | _, F64.ninf => false
  | _, F64.pinf => true
  | F64.pinf, _ => false
  | F64.fin a, F64.fin b => decide (a ≤ b)

/-- Rust `f64::min`: if one argument is NaN the other is returned, otherwise
the smaller argument. -/
def F64.fmin : F64 → F64 → F64
  | F64.nan, b => b
  | a, F64.nan => a
  | a, b => if F64.fle a b then a else b

/-- Rust `f64::max`: if one argument is NaN the other is returned, otherwise
the larger argument. -/
def F64.fmax : F64 → F64 → F64
  | F64.nan, b => b
  | a, F64.nan => a
  | a, b => if F64.fle a b then b else a

/-- IEEE division of two finite values: division by zero yields a signed
infinity, and `0/0` yields NaN, exactly as `f64` division behaves in the
source. -/
def F64.fdiv (num den : ℚ) : F64 :=
  if den = 0 then
    if 0 < num then F64.pinf
    else if num < 0 then F64.ninf
    else F64.nan
  else F64.fin (num / den)

/-- Kernel-computable floor square root: the largest candidate `c ≤ fuel`
with `c * c ≤ n`. -/
def natSqrtAux : ℕ → ℕ → ℕ
  | 0, _ => 0
  | fuel + 1, n => if (fuel + 1) * (fuel + 1) ≤ n then fuel + 1 else natSqrtAux fuel n

/-- Floor square root of a natural number, by bounded descent (structural, so
that concrete evaluations reduce in the kernel). -/
def natSqrt (n : ℕ) : ℕ :=
  natSqrtAux n n

/-- Exact-rational model of `f64::sqrt`, used through `Vector3d::length`.
Exact whenever numerator and denominator of a nonnegative input are perfect
squares (every input at which a theorem below evaluates it); a floor
approximation elsewhere, on which no theorem below depends. -/
def ratSqrt (q : ℚ) : ℚ :=
  if q ≤ 0 then 0 else mkRat (natSqrt q.num.toNat) (natSqrt q.den)

/-- Model of `f64::EPSILON` (2^-52), the parallelism guard of the
Moeller-Trumbore test in `Ray::intersect_with_triangle`. -/
def f64Epsilon : ℚ := 1 / 2 ^ 52

/-- The 3D vector type of src/scene/engine.rs, with exact-rational
components. -/
structure Vector3d where
  x : ℚ
  y : ℚ
  z : ℚ
deriving DecidableEq

instance : Add Vector3d :=
  ⟨fun a b => ⟨a.x + b.x, a.y + b.y, a.z + b.z⟩⟩

instance : Sub Vector3d :=
  ⟨fun a b => ⟨a.x - b.x, a.y - b.y, a.z - b.z⟩⟩

instance : Neg Vector3d :=
  ⟨fun a => ⟨-a.x, -a.y, -a.z⟩⟩

instance : HMul Vector3d ℚ Vector3d :=
  ⟨fun a k => ⟨a.x * k, a.y * k, a.z * k⟩⟩

instance : HDiv Vector3d ℚ Vector3d :=
  ⟨fun a k => ⟨a.x / k, a.y / k, a.z / k⟩⟩

/-- Dot product (src/scene/engine.rs `Vector3d::dot`). -/
def Vector3d.dot (a b : Vector3d) : ℚ :=
  a.x * b.x + a.y * b.y + a.z * b.z

/-- Cross product (src/scene/engine.rs `Vector3d::cross`), with the source's
sign convention on the y component. -/
def Vector3d.cross (a b : Vector3d) : Vector3d :=
  ⟨a.y * b.z - a.z * b.y, -(a.x * b.z - a.z * b.x), a.x * b.y - a.y * b.x⟩

/-- Euclidean length (src/scene/engine.rs `Vector3d::length`), through the
`ratSqrt` model of `f64::sqrt`. -/
def Vector3d.length (a : Vector3d) : ℚ :=
  ratSqrt (a.x ^ 2 + a.y ^ 2 + a.z ^ 2)

/-- Modelled from the spec: `Vector3d::normalised` is called by
src/scene/raytracer.rs but its definition is not among the provided sources;
per the spec's vector algebra (`normalize`) it scales by the inverse length.
A zero-length input divides by zero (`ℚ` yields the zero vector where `f64`
would yield NaN components); no theorem below depends on that case. -/
def Vector3d.normalised (a : Vector3d) : Vector3d :=
  a / a.length

/-- Colour with `u8` channels (src/scene/entities.rs `Color`). -/
structure Color where
  r : Fin 256
  g : Fin 256
  b : Fin 256
deriving DecidableEq

/-- Per-channel unweighted mean of a list of colours
(src/scene/entities.rs `Color::mix`): channel sums are accumulated in `u64`,
then divided by the list length.  On an empty input the source performs an
integer division by zero, which panics; the model returns `none` there.  The
final `as u8` casts are the `% 256` reductions. -/
def Color.mix (colors : List Color) : Option Color :=
  if colors.length = 0 then none
  else
    let r := colors.foldl (fun acc c => acc + (c.r : ℕ)) 0
    let g := colors.foldl (fun acc c => acc + (c.g : ℕ)) 0
    let b := colors.foldl (fun acc c => acc + (c.b : ℕ)) 0
    some ⟨⟨r / colors.length % 256, Nat.mod_lt _ (by norm_num)⟩,
          ⟨g / colors.length % 256, Nat.mod_lt _ (by norm_num)⟩,
          ⟨b / colors.length % 256, Nat.mod_lt _ (by norm_num)⟩⟩

/-- Texture (src/scene/entities.rs): row-major colour array with width and
height. -/
structure Texture where
  colours : List Color
  width : ℕ
  height : ℕ
deriving DecidableEq

/-- Material (src/scene/material.rs).  The `reflectivity` field is read by
src/scene/raytracer.rs (`material.reflectivity`) but absent from the
material.rs snapshot; it is modelled from the spec (Section 4.4 step 8:
"the material's reflectivity"). -/
structure Material where
  name : String
  ambient_color_coefficient : Vector3d
  diffuse_color_coefficient : Vector3d
  specular_color_coefficient : Vector3d
  specular_weight : ℚ
  texture : Texture
  bump_map : Option Texture
  reflectivity : ℚ
deriving DecidableEq

/-- Triangle (src/scene/entities.rs): vertex positions, texture and normal
coordinates, and a shared material (the `Arc` is modelled by value, which is
faithful because materials are immutable). -/
structure Triangle where
  v1 : Vector3d
  v2 : Vector3d
  v3 : Vector3d
  v1_tex_coords : Vector3d
  v2_tex_coords : Vector3d
  v3_tex_coords : Vector3d
  v1_normal_coords : Vector3d
  v2_normal_coords : Vector3d
  v3_normal_coords : Vector3d
  material : Material
deriving DecidableEq

/-- Scene light (src/scene/entities.rs `Light`). -/
inductive Light where
  | Ambient : ℚ → Light
  | Point : ℚ → Vector3d → Light
  | Directional : ℚ → Vector3d → Light
deriving DecidableEq

/-- Axis-aligned bounding box with inner geometry tag
(src/collision/AABB.rs `AABB`); the `&Triangle` reference of
`AABBInnerGeometry::Triangle` is modelled by value, `Empty` by `none`. -/
structure AABB where
  min_coords : Vector3d
  max_coords : Vector3d
  inner_geometry : Option Triangle
deriving DecidableEq

/-- Constructor from explicit bounds (src/collision/AABB.rs `AABB::new`),
with the source's parameter order. -/
def AABB.new (min_x max_x min_y max_y min_z max_z : ℚ) : AABB :=
  ⟨⟨min_x, min_y, min_z⟩, ⟨max_x, max_y, max_z⟩, none⟩

/-- Bounding box of a triangle (src/collision/AABB.rs `AABB::from_triangle`):
per-axis minima and maxima over the three vertices. -/
def AABB.from_triangle (triangle : Triangle) : AABB :=
  ⟨⟨min triangle.v1.x (min triangle.v2.x triangle.v3.x),
    min triangle.v1.y (min triangle.v2.y triangle.v3.y),
    min triangle.v1.z (min triangle.v2.z triangle.v3.z)⟩,
   ⟨max triangle.v1.x (max triangle.v2.x triangle.v3.x),
    max triangle.v1.y (max triangle.v2.y triangle.v3.y),
    max triangle.v1.z (max triangle.v2.z triangle.v3.z)⟩,
   some triangle⟩

/-- Axis-separating overlap test (src/collision/AABB.rs `AABB::intersects`):
boxes intersect unless they are disjoint on at least one axis. -/
def AABB.intersects (self other : AABB) : Bool :=
  if self.max_coords.x < other.min_coords.x ∨ self.min_coords.x > other.max_coords.x then
    false
  else if self.max_coords.y < other.min_coords.y ∨ self.min_coords.y > other.max_coords.y then
    false
  else if self.max_coords.z < other.min_coords.z ∨ self.min_coords.z > other.max_coords.z then
    false
  else
    true

/-- Modelled from the spec: the plain bounding-box type `Aabb` that
src/collision/ray.rs imports from `super::aabb` is not among the provided
sources (the AABB.rs present defines the tagged variant above); per the spec
(Section 3) it is a min/max corner pair. -/
structure Aabb where
  min_coords : Vector3d
  max_coords : Vector3d
deriving DecidableEq

/-- Ray (src/collision/ray.rs `Ray`): origin and direction, not necessarily
unit length. -/
structure Ray where
  origin : Vector3d
  direction : Vector3d
deriving DecidableEq

/-- Result of a ray/triangle intersection
(src/collision/ray.rs `RayTriangleIntersectionResult`): distance,
barycentric `u`, `v`, and the hit triangle (the `&Triangle` modelled by
value). -/
structure RayTriangleIntersectionResult where
  t : ℚ
  u : ℚ
  v : ℚ
  triangle : Triangle
deriving DecidableEq

/-- Result of a ray/box intersection
(src/collision/ray.rs `RayAABBIntersectionResult`); the distance is an `F64`
because the slab divisions can produce infinities. -/
structure RayAABBIntersectionResult where
  t : F64
deriving DecidableEq

/-- Per-axis slab entry/exit parameters and their min/max reductions, as
computed inside `Ray::intersect_aabb` (src/collision/ray.rs lines 22-36). -/
def Ray.slabTmin (r : Ray) (aabb : Aabb) : F64 :=
  F64.fmax
    (F64.fmax
      (F64.fmin (F64.fdiv (aabb.min_coords.x - r.origin.x) r.direction.x)
                (F64.fdiv (aabb.max_coords.x - r.origin.x) r.direction.x))
      (F64.fmin (F64.fdiv (aabb.min_coords.y - r.origin.y) r.direction.y)
                (F64.fdiv (aabb.max_coords.y - r.origin.y) r.direction.y)))
    (F64.fmin (F64.fdiv (aabb.min_coords.z - r.origin.z) r.direction.z)
              (F64.fdiv (aabb.max_coords.z - r.origin.z) r.direction.z))

/-- The min-of-maxima reduction of `Ray::intersect_aabb`. -/
def Ray.slabTmax (r : Ray) (aabb : Aabb) : F64 :=
  F64.fmin
    (F64.fmin
      (F64.fmax (F64.fdiv (aabb.min_coords.x - r.origin.x) r.direction.x)
                (F64.fdiv (aabb.max_coords.x - r.origin.x) r.direction.x))
      (F64.fmax (F64.fdiv (aabb.min_coords.y - r.origin.y) r.direction.y)
                (F64.fdiv (aabb.max_coords.y - r.origin.y) r.direction.y)))
    (F64.fmax (F64.fdiv (aabb.min_coords.z - r.origin.z) r.direction.z)
              (F64.fdiv (aabb.max_coords.z - r.origin.z) r.direction.z))

/-- The per-axis slab entry parameter (the smaller of the two plane-crossing
parameters of an axis), a reading aid for the statements about
`intersect_aabb`. -/
def axisSlabMin (o lo hi dv : ℚ) : F64 :=
  F64.fmin (F64.fdiv (lo - o) dv) (F64.fdiv (hi - o) dv)

/-- The per-axis slab exit parameter. -/
def axisSlabMax (o lo hi dv : ℚ) : F64 :=
  F64.fmax (F64.fdiv (lo - o) dv) (F64.fdiv (hi - o) dv)

/-- Slab-method ray/box test (src/collision/ray.rs `Ray::intersect_aabb`):
no hit if the box is entirely behind the origin (`tmax < 0`) or the slabs are
disjoint (`tmin > tmax`); the witness distance is `tmax` when the origin is
inside the box (`tmin < 0`) and `tmin` otherwise. -/
def Ray.intersect_aabb (r : Ray) (aabb : Aabb) : Option RayAABBIntersectionResult :=
  let tmin := r.slabTmin aabb
  let tmax := r.slabTmax aabb
  if F64.flt tmax (F64.fin 0) then none
  else if F64.flt tmax tmin then none
  else if F64.flt tmin (F64.fin 0) then some ⟨tmax⟩
  else some ⟨tmin⟩

/-- Moeller-Trumbore ray/triangle test
(src/collision/ray.rs `Ray::intersect_with_triangle`): rejects near-parallel
rays (`|a| < EPSILON`), barycentrics outside the triangle, and intersections
at parameter `t ≤ EPSILON`. -/
def Ray.intersect_with_triangle (r : Ray) (triangle : Triangle) :
    Option RayTriangleIntersectionResult :=
  let edge1 := triangle.v2 - triangle.v1
  let edge2 := triangle.v3 - triangle.v1
  let h := r.direction.cross edge2
  let a := edge1.dot h
  if -f64Epsilon < a ∧ a < f64Epsilon then none
  else
    let f := 1 / a
    let s := r.origin - triangle.v1
    let u := f * s.dot h
    if u < 0 ∨ u > 1 then none
    else
      let q := s.cross edge1
      let v := f * r.direction.dot q
      if v < 0 ∨ u + v > 1 then none
      else
        let t := f * edge2.dot q
        if t > f64Epsilon then some ⟨t, u, v, triangle⟩ else none

/-- Modelled from the spec: a node of the arena octree traversed by
src/collision/ray.rs.  ray.rs imports `super::octree::Octree` with fields
`nodes`, `aabbs`, `triangles`, which is not the map-based octree the provided
octree.rs defines; node fields are taken from their uses in ray.rs
(`aabb_index`, `triangles`, `children`, `triangle_count`) and from the spec
(Section 4.3 step 1: a node with "zero assigned triangles and (conceptually)
no relevant descendants" reports no hit, so `triangle_count` counts the
triangles stored in the node's subtree). -/
structure OctreeNode where
  aabb_index : ℕ
  triangles : List ℕ
  children : List ℕ
  triangle_count : ℕ
deriving DecidableEq

/-- Modelled from the spec: the arena octree of src/collision/ray.rs - flat
node arena plus flat AABB and triangle stores, referenced by integer index
(spec Section 3). -/
structure AOctree where
  nodes : List OctreeNode
  aabbs : List Aabb
  triangles : List Triangle
deriving DecidableEq

/-- Out-of-range node accesses (`octree.nodes[i]`) would panic in the source;
the model returns this inert node, whose zero `triangle_count` makes the
traversal report no hit. -/
def junkNode : OctreeNode := ⟨0, [], [], 0⟩

/-- Out-of-range triangle accesses would panic in the source; the model
returns this degenerate triangle.  Theorems that depend on which triangle an
index denotes carry a well-formedness hypothesis bounding the indices. -/
def junkTriangle : Triangle :=
  ⟨⟨0, 0, 0⟩, ⟨0, 0, 0⟩, ⟨0, 0, 0⟩, ⟨0, 0, 0⟩, ⟨0, 0, 0⟩, ⟨0, 0, 0⟩,
   ⟨0, 0, 0⟩, ⟨0, 0, 0⟩, ⟨0, 0, 0⟩,
   ⟨"", ⟨0, 0, 0⟩, ⟨0, 0, 0⟩, ⟨0, 0, 0⟩, 0, ⟨[], 0, 0⟩, none, 0⟩⟩

/-- Out-of-range AABB accesses would panic in the source; an inert box. -/
def junkAabb : Aabb := ⟨⟨0, 0, 0⟩, ⟨0, 0, 0⟩⟩

/-- First successful child visit of the traversal's child loop
(src/collision/ray.rs lines 152-161): the loop breaks at the first child
whose recursive query returns a hit; in this pure model that is the first
`some` among the visits, taken in the sorted order. -/
def firstChildHit (visit : ℕ → Option RayTriangleIntersectionResult) :
    List (F64 × ℕ) → Option RayTriangleIntersectionResult
  | [] => none
  | p :: rest =>
    match visit p.2 with
    | some rti => some rti
    | none => firstChildHit visit rest

/-- One step of the traversal's own-triangle loop
(src/collision/ray.rs lines 119-129): test the indexed triangle and keep the
hit when it is strictly closer than the closest distance so far (which
starts at `max_t`). -/
def triangleFoldStep (r : Ray) (octree : AOctree)
    (st : F64 × Option RayTriangleIntersectionResult) (triangle_index : ℕ) :
    F64 × Option RayTriangleIntersectionResult :=
  match r.intersect_with_triangle (octree.triangles.getD triangle_index junkTriangle) with
  | some tri => if F64.flt (F64.fin tri.t) st.1 then (F64.fin tri.t, some tri) else st
  | none => st

/-- The traversal's child-box pre-test (src/collision/ray.rs lines 135-144):
the children whose AABB the ray hits, paired with the box-hit distance. -/
def childCandidates (r : Ray) (octree : AOctree) (children : List ℕ) : List (F64 × ℕ) :=
  children.filterMap
    (fun coi =>
      let child_node := octree.nodes.getD coi junkNode
      match r.intersect_aabb (octree.aabbs.getD child_node.aabb_index junkAabb) with
      | some coirs => some (coirs.t, coi)
      | none => none)

/-- Distance of the child hit, infinite when there is none
(src/collision/ray.rs lines 149-150 and 156). -/
def childHitDistance : Option RayTriangleIntersectionResult → F64
  | some rti => F64.fin rti.t
  | none => F64.pinf

/-- Nearest-hit octree traversal
(src/collision/ray.rs `Ray::intersect_with_octant_with_max_t`), with an
explicit recursion-depth fuel (the source recursion is unbounded; every
theorem below either holds for all fuel or is evaluated with fuel exceeding
the octree's node count, which bounds the depth of any cycle-free arena).
Children are sorted by ascending box-hit distance (the source uses the stable
`sort_by` with `partial_cmp(..).unwrap()`, which panics on NaN keys; the
model's comparison simply orders NaN last - no theorem below involves NaN
keys) and the recursion into a child uses `intersect_with_octant`, i.e. an
infinite `max_t` (source line 153). -/
def Ray.intersect_with_octant_with_max_t (r : Ray) (octree : AOctree) :
    ℕ → ℕ → F64 → Option RayTriangleIntersectionResult
  | 0 => fun _ _ => none
  | fuel + 1 => fun octant_index max_t =>
    let node := octree.nodes.getD octant_index junkNode
    if node.triangle_count = 0 then none
    else
      let own :=
        node.triangles.foldl (triangleFoldStep r octree)
          (max_t, (none : Option RayTriangleIntersectionResult))
      let sorted :=
        List.insertionSort (fun p q => F64.flt p.1 q.1 = true)
          (childCandidates r octree node.children)
      let childRes :=
        firstChildHit (fun coi => r.intersect_with_octant_with_max_t octree fuel coi F64.pinf)
          sorted
      if F64.flt (childHitDistance childRes) own.1 then childRes else own.2

/-- Fuel that suffices for any cycle-free arena: a traversal path never
revisits a node, so its length is at most the node count. -/
def AOctree.defaultFuel (octree : AOctree) : ℕ :=
  octree.nodes.length + 1

/-- Entry point with infinite bound
(src/collision/ray.rs `Ray::intersect_with_octant`). -/
def Ray.intersect_with_octant (r : Ray) (octree : AOctree) (octant_index : ℕ) :
    Option RayTriangleIntersectionResult :=
  r.intersect_with_octant_with_max_t octree octree.defaultFuel octant_index F64.pinf

/-- Lookup in an association list, modelling `HashMap::get`: the value of the
first (and, by construction of `alInsert`, only) binding of the key. -/
def alGet {α : Type} (m : List (ℕ × α)) (k : ℕ) : Option α :=
  (m.find? (fun p => p.1 == k)).map (fun p => p.2)

/-- Removal of a binding, modelling `HashMap::remove`. -/
def alRemove {α : Type} (m : List (ℕ × α)) (k : ℕ) : List (ℕ × α) :=
  m.filter (fun p => !(p.1 == k))

/-- Insertion of a binding, modelling `HashMap::insert` (replaces any
existing binding of the key).  No code path of the source iterates over a
map, so the binding order is irrelevant. -/
def alInsert {α : Type} (m : List (ℕ × α)) (k : ℕ) (v : α) : List (ℕ × α) :=
  (k, v) :: alRemove m k

/-- The incremental, map-based octree of src/collision/octree.rs.  The four
`HashMap`s are modelled as association lists with `HashMap` get/insert/remove
semantics. -/
structure Octree where
  octant_AABB_map : List (ℕ × ℕ)
  octant_triangle_map : List (ℕ × ℕ)
  octant_child_map : List (ℕ × List ℕ)
  AABBs : List AABB
  triangles : List Triangle
  triangle_aabb_map : List (ℕ × ℕ)
  octant_count : ℕ
deriving DecidableEq

/-- Fresh octree with a single root octant covering the given bounds
(src/collision/octree.rs `Octree::new`). -/
def Octree.new (min_x max_x min_y max_y min_z max_z : ℚ) : Octree :=
  { AABBs := [AABB.new min_x max_x min_y max_y min_z max_z]
    octant_AABB_map := [(0, 0)]
    octant_triangle_map := []
    octant_child_map := []
    triangle_aabb_map := []
    triangles := []
    octant_count := 1 }

/-- An inert box standing in for the panics of the source's `unwrap()` calls
on arena lookups; every evaluation below stays in bounds. -/
def junkAABB : AABB := ⟨⟨0, 0, 0⟩, ⟨0, 0, 0⟩, none⟩

/-- Lazy 8-way subdivision of an octant
(src/collision/octree.rs `Octree::subdivide`), reproduced exactly as written:
note that all four `top_*` child boxes take their lower y bound from
`y_min + half_z_distance` (the z half-extent), not `y_min + half_y_distance`.
Returns the updated octree together with the new child octant indices. -/
def Octree.subdivide (o : Octree) (octant_index : ℕ) : Octree × List ℕ :=
  let aabb_index := (alGet o.octant_AABB_map octant_index).getD 0
  let octant_aabb := o.AABBs.getD aabb_index junkAABB
  let x_min := octant_aabb.min_coords.x
  let y_min := octant_aabb.min_coords.y
  let z_min := octant_aabb.min_coords.z
  let x_max := octant_aabb.max_coords.x
  let y_max := octant_aabb.max_coords.y
  let z_max := octant_aabb.max_coords.z
  let half_x_distance := (x_max - x_min) / 2
  let half_y_distance := (y_max - y_min) / 2
  let half_z_distance := (z_max - z_min) / 2
  let bottom_back_left :=
    AABB.new x_min (x_min + half_x_distance) y_min (y_min + half_y_distance)
      z_min (z_min + half_z_distance)
  let bottom_front_left :=
    AABB.new x_min (x_min + half_x_distance) y_min (y_min + half_y_distance)
      (z_min + half_z_distance) z_max
  let bottom_front_right :=
    AABB.new (x_min + half_x_distance) x_max y_min (y_min + half_y_distance)
      (z_min + half_z_distance) z_max
  let bottom_back_right :=
    AABB.new (x_min + half_x_distance) x_max y_min (y_min + half_y_distance)
      z_min (z_min + half_z_distance)
  let top_back_left :=
    AABB.new x_min (x_min + half_x_distance) (y_min + half_z_distance) y_max
      z_min (z_min + half_z_distance)
  let top_front_left :=
    AABB.new x_min (x_min + half_x_distance) (y_min + half_z_distance) y_max
      (z_min + half_z_distance) z_max
  let top_front_right :=
    AABB.new (x_min + half_x_distance) x_max (y_min + half_z_distance) y_max
      (z_min + half_z_distance) z_max
  let top_back_right :=
    AABB.new (x_min + half_x_distance) x_max (y_min + half_z_distance) y_max
      z_min (z_min + half_z_distance)
  let o1 := { o with octant_child_map := alInsert o.octant_child_map octant_index [] }
  [bottom_back_left, bottom_front_left, bottom_front_right, bottom_back_right,
   top_back_left, top_front_left, top_front_right, top_back_right].foldl
    (fun st abb =>
      let oc := st.1
      let withBox := { oc with AABBs := oc.AABBs ++ [abb] }
      let oc2 :=
        { withBox with
          octant_AABB_map :=
            alInsert withBox.octant_AABB_map oc.octant_count (withBox.AABBs.length - 1)
          octant_child_map :=
            alInsert withBox.octant_child_map octant_index
              ((alGet withBox.octant_child_map octant_index).getD [] ++ [oc.octant_count])
          octant_count := oc.octant_count + 1 }
      (oc2, st.2 ++ [oc.octant_count]))
    (o1, ([] : List ℕ))

/-- Recursive insertion of a triangle index at an octant
(src/collision/octree.rs `Octree::push_at_octant`), with an explicit
recursion-depth fuel: the source recursion is unbounded (two triangles whose
boxes share a point subdivide forever), and every evaluation below uses fuel
exceeding the depth it reaches.  The source's debug `println!` is pure
output and is dropped. -/
def Octree.push_at_octant : ℕ → Octree → ℕ → ℕ → ℕ → Octree
  | 0 => fun o _ _ _ => o
  | fuel + 1 => fun o triangle_index aabb_index octant_index =>
    let aabb := o.AABBs.getD aabb_index junkAABB
    let octant_aabb_index := (alGet o.octant_AABB_map octant_index).getD 0
    let octant_aabb := o.AABBs.getD octant_aabb_index junkAABB
    let intersects := aabb.intersects octant_aabb
    let current_octant_has_triangle := (alGet o.octant_triangle_map octant_index).isSome
    let children := (alGet o.octant_child_map octant_index).getD []
    let is_leaf_octant := children.length = 0
    if !intersects then o
    else if is_leaf_octant ∧ ¬current_octant_has_triangle then
      { o with octant_triangle_map := alInsert o.octant_triangle_map octant_index triangle_index }
    else if is_leaf_octant then
      let sd := o.subdivide octant_index
      let o1 := sd.1
      let child_indices := sd.2
      let old_triangle_index := (alGet o1.octant_triangle_map octant_index).getD 0
      let o2 :=
        { o1 with octant_triangle_map := alRemove o1.octant_triangle_map octant_index }
      let old_triangle_aabb_index := (alGet o2.triangle_aabb_map old_triangle_index).getD 0
      child_indices.foldl
        (fun oc ci =>
          Octree.push_at_octant fuel
            (Octree.push_at_octant fuel oc triangle_index aabb_index ci)
            old_triangle_index old_triangle_aabb_index ci)
        o2
    else
      children.foldl
        (fun oc ci => Octree.push_at_octant fuel oc triangle_index aabb_index ci)
        o

/-- Top-level triangle insertion (src/collision/octree.rs
`Octree::push_triangle`): append the triangle and its bounding box to the
flat stores, record the triangle-to-box link, and insert at the root. -/
def Octree.push_triangle (fuel : ℕ) (o : Octree) (triangle : Triangle) : Octree :=
  let triangle_aabb := AABB.from_triangle triangle
  let aabb_index := o.AABBs.length
  let triangle_index := o.triangles.length
  let o1 := { o with triangles := o.triangles ++ [triangle], AABBs := o.AABBs ++ [triangle_aabb] }
  let o2 := { o1 with triangle_aabb_map := alInsert o1.triangle_aabb_map triangle_index aabb_index }
  Octree.push_at_octant fuel o2 triangle_index aabb_index 0

/-- Material map (src/scene/material.rs `MaterialMap`): textures plus a
name-keyed material table (modelled as an association list). -/
structure MaterialMap where
  textures : List Texture
  materials : List (String × Material)
deriving DecidableEq

/-- Scene data (src/scene/scenedata.rs).  src/scene/raytracer.rs traverses
`scene_data.octree` through `Ray::intersect_with_octant`, which requires the
arena octree; the `octree` field therefore has the arena type. -/
structure SceneData where
  triangles : List Triangle
  vertices : List Vector3d
  vertex_texture_coords : List Vector3d
  vertex_normal_coords : List Vector3d
  material_map : MaterialMap
  octree : AOctree
deriving DecidableEq

/-- The ray tracer (src/scene/raytracer.rs `RayTracer`). -/
structure RayTracer where
  scene_data : SceneData
  lights : List Light
  origin : Vector3d
deriving DecidableEq

/-- Background colour (src/scene/raytracer.rs `WHITE`). -/
def WHITE : Color := ⟨255, 255, 255⟩

/-- Self-intersection offset (src/scene/raytracer.rs `SURFACE_OFFSET`). -/
def SURFACE_OFFSET : ℚ := 1 / 10000

/-- Reflection recursion cap (src/scene/raytracer.rs
`MAX_REFLECTION_DEPTH`). -/
def MAX_REFLECTION_DEPTH : ℕ := 5

/-- Rust `as usize` saturating cast from `f64`, used for texture indices:
negative values clamp to zero, fractions truncate. -/
def ratToUsize (q : ℚ) : ℕ :=
  if q < 0 then 0 else q.floor.toNat

/-- Clamp to `[0, 255]` followed by the `as u8` cast, as in the colour
construction of `get_ray_colour_recursive`. -/
def clampChannel (q : ℚ) : Fin 256 :=
  ⟨Nat.min 255 (Int.toNat (Rat.floor (max 0 q))), Nat.lt_succ_of_le (Nat.min_le_left _ _)⟩

/-- Modelled from the spec: the `Color -> Vector3d` conversion (`.into()`)
used by the bump-map decode of `get_normal_at_intersection` is not among the
provided sources; the channels become the vector components. -/
def colorToVec (c : Color) : Vector3d :=
  ⟨(c.r : ℕ), (c.g : ℕ), (c.b : ℕ)⟩

/-- Shadow-ray query (src/scene/raytracer.rs
`triangle_exists_between_points`): returns `true` when NO triangle lies
between the (normal-offset) origin and the target, i.e. when the light
reaches the point.  The bound is the length of the unnormalised direction,
so a blocking hit must be strictly closer than the target. -/
def RayTracer.triangle_exists_between_points
    (rt : RayTracer) (origin normal target : Vector3d) : Bool :=
  let direction := target - origin
  let new_origin := origin + normal * SURFACE_OFFSET
  let ray : Ray := ⟨new_origin, direction⟩
  let max_t := direction.length
  let tri :=
    ray.intersect_with_octant_with_max_t rt.scene_data.octree
      rt.scene_data.octree.defaultFuel 0 (F64.fin max_t)
  tri.isNone

/-- Diffuse term (src/scene/raytracer.rs
`compute_diffuse_lighting_intensity`): zero for a back-facing light,
otherwise the diffuse coefficient scaled by intensity and the normalised
`N.L`. -/
def RayTracer.compute_diffuse_lighting_intensity
    (_rt : RayTracer) (intensity n_dot_l : ℚ) (normal l : Vector3d)
    (material : Material) : Vector3d :=
  if n_dot_l ≤ 0 then ⟨0, 0, 0⟩
  else material.diffuse_color_coefficient * intensity * n_dot_l / (normal.length * l.length)

/-- Specular term (src/scene/raytracer.rs
`compute_specular_lighting_intensity`): skipped entirely when the exponent
is the sentinel `-1`; otherwise the reflected-light-vector formula with the
`f64::powf` model `ratPow` (exact for nonnegative integer exponents, the
only values any theorem below evaluates it at). -/
def ratPow (base exponent : ℚ) : ℚ :=
  if 0 ≤ exponent.num ∧ exponent.den = 1 then base ^ exponent.num.toNat else 0

/-- Specular lighting contribution of one light. -/
def RayTracer.compute_specular_lighting_intensity
    (_rt : RayTracer) (s intensity : ℚ) (normal v l : Vector3d)
    (material : Material) : Vector3d :=
  if s ≠ -1 then
    let r := (normal * (2 : ℚ)) * normal.dot l - l
    let r_dot_v := r.dot v
    if r_dot_v > 0 then
      material.specular_color_coefficient * intensity *
        ratPow (r_dot_v / (r.length * v.length)) s
    else ⟨0, 0, 0⟩
  else ⟨0, 0, 0⟩

/-- The light loop of src/scene/raytracer.rs `compute_lighting_intensity`,
made explicit over the remaining lights and the accumulator so that the
source's early `break` (taken when a point light's shadow ray is blocked)
becomes returning the accumulator unchanged. -/
def RayTracer.lightingLoop
    (rt : RayTracer) (point normal v : Vector3d) (material : Material) :
    List Light → Vector3d → Vector3d
  | [], i => i
  | light :: rest, i =>
    match light with
    | Light.Ambient intensity =>
      rt.lightingLoop point normal v material rest
        (i + material.ambient_color_coefficient * intensity)
    | Light.Directional intensity direction =>
      let n_dot_l := normal.dot direction
      rt.lightingLoop point normal v material rest
        (i + rt.compute_diffuse_lighting_intensity intensity n_dot_l normal direction material
           + rt.compute_specular_lighting_intensity material.specular_weight intensity normal v
               direction material)
    | Light.Point intensity position =>
      let light_hits_point := rt.triangle_exists_between_points point normal position
      if !light_hits_point then i
      else
        let l := position - point
        let n_dot_l := normal.dot l
        rt.lightingLoop point normal v material rest
          (i + rt.compute_diffuse_lighting_intensity intensity n_dot_l normal l material
             + rt.compute_specular_lighting_intensity material.specular_weight intensity normal v
                 l material)

/-- Per-point lighting (src/scene/raytracer.rs `compute_lighting_intensity`):
the loop over `self.lights` starting from the zero accumulator. -/
def RayTracer.compute_lighting_intensity
    (rt : RayTracer) (point normal v : Vector3d) (material : Material) : Vector3d :=
  rt.lightingLoop point normal v material rt.lights ⟨0, 0, 0⟩

/-- Interpolated, optionally bump-mapped surface normal
(src/scene/raytracer.rs `get_normal_at_intersection`). -/
def RayTracer.get_normal_at_intersection
    (_rt : RayTracer) (intersection : RayTriangleIntersectionResult)
    (tex_x_index tex_y_index : ℕ) : Vector3d :=
  let w := 1 - intersection.u - intersection.v
  let n := intersection.triangle.v2_normal_coords * intersection.u
         + intersection.triangle.v3_normal_coords * intersection.v
         + intersection.triangle.v1_normal_coords * w
  match intersection.triangle.material.bump_map with
  | some bump_map =>
    let bump0 := colorToVec (bump_map.colours.getD
      (bump_map.width * tex_y_index + tex_x_index) ⟨0, 0, 0⟩)
    let bump1 := bump0.normalised
    let bump_vector := bump1 * (2 : ℚ) - (⟨1, 1, 1⟩ : Vector3d)
    let t0 := n.cross ⟨0, 1, 0⟩
    let t1 := if t0.length = 0 then n.cross ⟨0, 0, 1⟩ else t0
    let t := t1.normalised
    let b := (n.cross t).normalised
    let n2 : Vector3d := ⟨bump_vector.dot t, bump_vector.dot b, bump_vector.dot n⟩
    n2.normalised
  | none => n.normalised

/-- Recursive Whitted shading (src/scene/raytracer.rs
`get_ray_colour_recursive`), paired with the number of reflection bounces the
call performs so that the depth cap is a statement about the definition
itself.  Texture lookups use `getD` and `%` where the source would panic on
an empty or zero-sized texture; no theorem below depends on those cases.
The recursion is bounded because it only recurses while
`depth < MAX_REFLECTION_DEPTH`. -/
def RayTracer.get_ray_colour_recursive
    (rt : RayTracer) (origin direction : Vector3d) (depth : ℕ) : Color × ℕ :=
  let ray : Ray := ⟨origin, direction⟩
  match ray.intersect_with_octant rt.scene_data.octree 0 with
  | some intersection =>
    let p := origin + direction * intersection.t
    let tex := intersection.triangle.material.texture
    let w := 1 - intersection.u - intersection.v
    let tex_x := intersection.triangle.v2_tex_coords.x * intersection.u
               + intersection.triangle.v3_tex_coords.x * intersection.v
               + intersection.triangle.v1_tex_coords.x * w
    let tex_y := intersection.triangle.v2_tex_coords.y * intersection.u
               + intersection.triangle.v3_tex_coords.y * intersection.v
               + intersection.triangle.v1_tex_coords.y * w
    let tex_x_index := ratToUsize (tex_x * tex.width) % tex.width
    let tex_y_index := ratToUsize (tex_y * tex.height) % tex.height
    let col := tex.colours.getD (tex.width * tex_y_index + tex_x_index) ⟨0, 0, 0⟩
    let n := rt.get_normal_at_intersection intersection tex_x_index tex_y_index
    let lighting_intensity :=
      rt.compute_lighting_intensity p n (-direction) intersection.triangle.material
    let local_color : Vector3d :=
      ⟨(col.r : ℕ) * lighting_intensity.x,
       (col.g : ℕ) * lighting_intensity.y,
       (col.b : ℕ) * lighting_intensity.z⟩
    let reflectivity := intersection.triangle.material.reflectivity
    if h : reflectivity > 0 ∧ depth < MAX_REFLECTION_DEPTH then
      let d_dot_n := direction.dot n
      let reflect_dir := (direction - n * (2 : ℚ) * d_dot_n).normalised
      let reflect_origin := p + n * SURFACE_OFFSET
      let rec_result := rt.get_ray_colour_recursive reflect_origin reflect_dir (depth + 1)
      let reflected_vec := colorToVec rec_result.1
      let final_color := local_color * (1 - reflectivity) + reflected_vec * reflectivity
      (⟨clampChannel final_color.x, clampChannel final_color.y, clampChannel final_color.z⟩,
       rec_result.2 + 1)
    else
      (⟨clampChannel local_color.x, clampChannel local_color.y, clampChannel local_color.z⟩, 0)
  | none => (WHITE, 0)
termination_by MAX_REFLECTION_DEPTH - depth
decreasing_by omega

/-- Public entry point (src/scene/raytracer.rs `get_ray_colour`): the
recursive shader at depth 0, colour component only. -/
def RayTracer.get_ray_colour (rt : RayTracer) (origin direction : Vector3d) : Color :=
  (rt.get_ray_colour_recursive origin direction 0).1

/-- Modelled from the spec: the brute-force comparison scan of the spec's
octree nearest-hit property - test every triangle and keep the hit with the
smallest `t`. -/
def bruteForceClosestHit (r : Ray) (triangles : List Triangle) :
    Option RayTriangleIntersectionResult :=
  triangles.foldl
    (fun best tri =>
      match r.intersect_with_triangle tri with
      | some hit =>
        match best with
        | some b => if hit.t < b.t then some hit else best
        | none => some hit
      | none => best)
    none

/-- Modelled from the spec: the unbounded shadow test for a directional
light ("reaches the light without being blocked by any triangle ... at all
(directional, unbounded)") - an unbounded octree query from the
normal-offset point along the light direction finds no triangle. -/
def specDirectionalUnblocked (rt : RayTracer) (point normal direction : Vector3d) : Bool :=
  (Ray.intersect_with_octant ⟨point + normal * SURFACE_OFFSET, direction⟩
    rt.scene_data.octree 0).isNone

/-- Modelled from the spec: the contribution of a single light under the
spec's lighting description (Section 4.4 step 6) - ambient lights contribute
unconditionally, directional and point lights only when their shadow ray is
unblocked, and every light contributes independently of the others. -/
def specLightContribution
    (rt : RayTracer) (point normal v : Vector3d) (material : Material) :
    Light → Vector3d
  | Light.Ambient intensity => material.ambient_color_coefficient * intensity
  | Light.Directional intensity direction =>
    if specDirectionalUnblocked rt point normal direction then
      rt.compute_diffuse_lighting_intensity intensity (normal.dot direction) normal direction
          material
        + rt.compute_specular_lighting_intensity material.specular_weight intensity normal v
            direction material
    else ⟨0, 0, 0⟩
  | Light.Point intensity position =>
    if rt.triangle_exists_between_points point normal position then
      let l := position - point
      rt.compute_diffuse_lighting_intensity intensity (normal.dot l) normal l material
        + rt.compute_specular_lighting_intensity material.specular_weight intensity normal v l
            material
    else ⟨0, 0, 0⟩

/-- Modelled from the spec: the whole-scene lighting under the spec's
description, the independent sum of the per-light contributions. -/
def computeLightingIntensitySpec
    (rt : RayTracer) (point normal v : Vector3d) (material : Material) : Vector3d :=
  (rt.lights.map (specLightContribution rt point normal v material)).foldr
    (fun a b => a + b) ⟨0, 0, 0⟩

/-- The contribution a light adds in the source's loop when it is reached:
ambient unconditionally, directional with no shadow test at all, a point
light only when its shadow ray is unblocked. -/
def codeLightContribution
    (rt : RayTracer) (point normal v : Vector3d) (material : Material) :
    Light → Vector3d
  | Light.Ambient intensity => material.ambient_color_coefficient * intensity
  | Light.Directional intensity direction =>
    rt.compute_diffuse_lighting_intensity intensity (normal.dot direction) normal direction
        material
      + rt.compute_specular_lighting_intensity material.specular_weight intensity normal v
          direction material
  | Light.Point intensity position =>
    if rt.triangle_exists_between_points point normal position then
      let l := position - point
      rt.compute_diffuse_lighting_intensity intensity (normal.dot l) normal l material
        + rt.compute_specular_lighting_intensity material.specular_weight intensity normal v l
            material
    else ⟨0, 0, 0⟩

/-- A point light whose shadow ray is blocked - the condition on which the
source's light loop breaks. -/
def isBlockedPointLight (rt : RayTracer) (point normal : Vector3d) : Light → Bool
  | Light.Point _ position => !(rt.triangle_exists_between_points point normal position)
  | _ => false

/-- Index well-formedness of an arena octree: every triangle index stored at
a node is within the triangle store (the source would panic otherwise). -/
def AOctree.wellFormed (o : AOctree) : Bool :=
  o.nodes.all (fun n => n.triangles.all (fun ti => ti < o.triangles.length))

/-- The AABB invariant of the spec (Section 3): `min.axis <= max.axis` on
every axis. -/
def Aabb.valid (b : Aabb) : Prop :=
  b.min_coords.x ≤ b.max_coords.x ∧ b.min_coords.y ≤ b.max_coords.y ∧
    b.min_coords.z ≤ b.max_coords.z

/-- Membership of a point in a closed box. -/
def Aabb.containsPoint (b : Aabb) (p : Vector3d) : Prop :=
  b.min_coords.x ≤ p.x ∧ p.x ≤ b.max_coords.x ∧
  b.min_coords.y ≤ p.y ∧ p.y ≤ b.max_coords.y ∧
  b.min_coords.z ≤ p.z ∧ p.z ≤ b.max_coords.z

/-- Strict interior membership of a point in a box. -/
def Aabb.strictlyContains (b : Aabb) (p : Vector3d) : Prop :=
  b.min_coords.x < p.x ∧ p.x < b.max_coords.x ∧
  b.min_coords.y < p.y ∧ p.y < b.max_coords.y ∧
  b.min_coords.z < p.z ∧ p.z < b.max_coords.z

/-- The point a ray reaches at parameter `q`. -/
def Ray.pointAt (r : Ray) (q : ℚ) : Vector3d :=
  r.origin + r.direction * q

/-- Membership of a point in the tagged box type of src/collision/AABB.rs,
as a boolean for list-level evaluation. -/
def AABB.containsPointB (b : AABB) (p : Vector3d) : Bool :=
  decide (b.min_coords.x ≤ p.x) && decide (p.x ≤ b.max_coords.x) &&
  decide (b.min_coords.y ≤ p.y) && decide (p.y ≤ b.max_coords.y) &&
  decide (b.min_coords.z ≤ p.z) && decide (p.z ≤ b.max_coords.z)

/-- A zero-data material for the concrete scenes below. -/
def plainMaterial : Material :=
  ⟨"", ⟨0, 0, 0⟩, ⟨0, 0, 0⟩, ⟨0, 0, 0⟩, 0, ⟨[], 0, 0⟩, none, 0⟩

/-- A bare geometric triangle for the concrete scenes below. -/
def mkTriangle (a b c : Vector3d) : Triangle :=
  ⟨a, b, c, ⟨0, 0, 0⟩, ⟨0, 0, 0⟩, ⟨0, 0, 0⟩, ⟨0, 0, 0⟩, ⟨0, 0, 0⟩, ⟨0, 0, 0⟩, plainMaterial⟩

/-- A long sliver triangle stored in the near child octants of `exC1oct`:
its bounding box reaches into the near boxes, but the example ray only meets
it at `t = 6`, far beyond them. -/
def exT1 : Triangle := mkTriangle ⟨1, -2, -1⟩ ⟨5, -1, -2⟩ ⟨5, -1, 0⟩

/-- A small triangle stored only in the far child octant of `exC1oct`, which
the example ray meets at `t = 7/2`. -/
def exT2 : Triangle := mkTriangle ⟨5/2, -9/5, -9/5⟩ ⟨5/2, -1/5, -9/5⟩ ⟨5/2, -1, -1/5⟩

/-- A structurally valid arena octree - root box split into its 8 canonical
octants, each triangle stored in exactly the leaves its bounding box
intersects, subtree counts correct - on which the early-exit traversal
returns a farther hit than the brute-force scan. -/
def exC1oct : AOctree :=
  ⟨[⟨0, [], [1, 2, 3, 4, 5, 6, 7, 8], 2⟩,
    ⟨1, [0], [], 1⟩,
    ⟨2, [0, 1], [], 2⟩,
    ⟨3, [0], [], 1⟩,
    ⟨4, [0], [], 1⟩,
    ⟨5, [], [], 0⟩,
    ⟨6, [], [], 0⟩,
    ⟨7, [], [], 0⟩,
    ⟨8, [], [], 0⟩],
   [⟨⟨0, -2, -2⟩, ⟨4, 2, 2⟩⟩,
    ⟨⟨0, -2, -2⟩, ⟨2, 0, 0⟩⟩,
    ⟨⟨2, -2, -2⟩, ⟨4, 0, 0⟩⟩,
    ⟨⟨0, -2, 0⟩, ⟨2, 0, 2⟩⟩,
    ⟨⟨2, -2, 0⟩, ⟨4, 0, 2⟩⟩,
    ⟨⟨0, 0, -2⟩, ⟨2, 2, 0⟩⟩,
    ⟨⟨2, 0, -2⟩, ⟨4, 2, 0⟩⟩,
    ⟨⟨0, 0, 0⟩, ⟨2, 2, 2⟩⟩,
    ⟨⟨2, 0, 0⟩, ⟨4, 2, 2⟩⟩],
   [exT1, exT2]⟩

/-- The example ray for `exC1oct`: along the x axis through the two near
child octants. -/
def exC1ray : Ray := ⟨⟨-1, -1, -1⟩, ⟨1, 0, 0⟩⟩

/-- A triangle in the plane `z = 1` around the z axis. -/
def exTz : Triangle := mkTriangle ⟨-1, -1, 1⟩ ⟨1, -1, 1⟩ ⟨0, 1, 1⟩

/-- A one-node octree holding `exTz`, for the max-t witness. -/
def exC4oct : AOctree :=
  ⟨[⟨0, [0], [], 1⟩], [⟨⟨-2, -2, -2⟩, ⟨2, 2, 2⟩⟩], [exTz]⟩

/-- Material with all coefficients 1 and no specular (`Ns = -1`), for the
lighting counterexample. -/
def exC5mat : Material :=
  ⟨"", ⟨1, 1, 1⟩, ⟨1, 1, 1⟩, ⟨1, 1, 1⟩, -1, ⟨[], 0, 0⟩, none, 0⟩

/-- Scene for the lighting counterexample: the occluder `exTz` sits at
`z = 1` between the shaded point (the origin) and the point light at
`z = 2`; an ambient light follows the point light in the list. -/
def exC5rt : RayTracer :=
  ⟨⟨[], [], [], [], ⟨[], []⟩,
    ⟨[⟨0, [0], [], 1⟩], [⟨⟨-2, -2, -2⟩, ⟨2, 2, 2⟩⟩], [exTz]⟩⟩,
   [Light.Point 1 ⟨0, 0, 2⟩, Light.Ambient 1],
   ⟨0, 0, 0⟩⟩

/-- Scene with an empty octree (a root with no triangles), for the
background-colour witness. -/
def exC8rt : RayTracer :=
  ⟨⟨[], [], [], [], ⟨[], []⟩,
    ⟨[⟨0, [], [], 0⟩], [⟨⟨-2, -2, -2⟩, ⟨2, 2, 2⟩⟩], []⟩⟩,
   [], ⟨0, 0, 0⟩⟩

/-- First triangle of the octree insertion counterexample, lying inside the
bottom-back-left child of the root box of `Octree.new 0 2 0 2 0 4`. -/
def exC3a : Triangle := mkTriangle ⟨1/5, 1/5, 1/5⟩ ⟨1/2, 1/5, 1/5⟩ ⟨1/5, 1/2, 1/5⟩

/-- Second triangle of the octree insertion counterexample: its bounding box
lies in the y range `(1, 2)` that the buggy subdivision of the non-cubic
root box leaves uncovered. -/
def exC3b : Triangle := mkTriangle ⟨1/5, 6/5, 1/5⟩ ⟨1/2, 6/5, 1/5⟩ ⟨1/5, 9/5, 1/5⟩

theorem foldlInvariant {α β : Type} {P : β → Prop} (f : β → α → β) :
    ∀ (l : List α) (init : β), P init → (∀ b a, a ∈ l → P b → P (f b a)) →
      P (l.foldl f init)
  | [], init, h0, _ => h0
  | a :: rest, init, h0, hstep =>
    foldlInvariant f rest (f init a) (hstep init a (by simp) h0)
      (fun b x hx hb => hstep b x (by simp [hx]) hb)

theorem F64.flt_trans {a b c : F64} (h1 : F64.flt a b = true) (h2 : F64.flt b c = true) :
    F64.flt a c = true := by
  cases a <;> cases b <;> cases c <;> simp_all [F64.flt]
  linarith

theorem F64.flt_pinf_left (x : F64) : F64.flt F64.pinf x = false := by
  cases x <;> rfl

/-- C9: `AABB::intersects` is symmetric - for all boxes `A` and `B`,
`A.intersects(B)` equals `B.intersects(A)`. -/
theorem aabb_intersects_symm (a b : AABB) : a.intersects b = b.intersects a := by
  unfold AABB.intersects
  split_ifs
  all_goals first | rfl | tauto

theorem foldlAddMap (f : Color → ℕ) :
    ∀ (l : List Color) (init : ℕ),
      l.foldl (fun acc c => acc + f c) init = init + (l.map f).sum
  | [], init => by simp
  | c :: rest, init => by
    rw [List.foldl_cons, foldlAddMap f rest (init + f c)]
    simp [List.map_cons, List.sum_cons]
    omega

theorem channelMeanLe (cs : List Color) (f : Color → ℕ) (h : ∀ c : Color, f c ≤ 255) :
    (cs.map f).sum / cs.length ≤ 255 := by
  have hsum : (cs.map f).sum ≤ cs.length * 255 := by
    have hb := List.sum_le_card_nsmul (cs.map f) 255 (by
      intro x hx
      rcases List.mem_map.mp hx with ⟨c, _, rfl⟩
      exact h c)
    simpa [smul_eq_mul] using hb
  exact Nat.div_le_of_le_mul' hsum

/-- C10: `Color::mix` is total exactly on non-empty input - on a non-empty
list it returns the per-channel truncated integer mean (channel sums then
integer division by the length; the `u8` casts cannot truncate because the
mean of `u8` values fits in a `u8`), while the empty list hits the
division-by-zero panic (modelled by `none`); the four-sub-pixel call shape
used by the render scheduler (src/scene/engine.rs line 238) is always
defined. -/
theorem colour_mix_mean (cs : List Color) :
    (Color.mix cs = none ↔ cs = []) ∧
    (cs ≠ [] → ∃ c, Color.mix cs = some c ∧
      (c.r : ℕ) = (cs.map fun x => (x.r : ℕ)).sum / cs.length ∧
      (c.g : ℕ) = (cs.map fun x => (x.g : ℕ)).sum / cs.length ∧
      (c.b : ℕ) = (cs.map fun x => (x.b : ℕ)).sum / cs.length) ∧
    (∀ c1 c2 c3 c4 : Color, (Color.mix [c1, c2, c3, c4]).isSome = true) := by
  refine ⟨?_, ?_, ?_⟩
  · unfold Color.mix
    split_ifs with h
    · simp [List.length_eq_zero.mp h]
    · exact iff_of_false (by simp) (fun hn => h (by simp [hn]))
  · intro hne
    have hlen : ¬cs.length = 0 := by simpa [List.length_eq_zero] using hne
    unfold Color.mix
    rw [if_neg hlen]
    refine ⟨_, rfl, ?_, ?_, ?_⟩
    · simp only [foldlAddMap, Nat.zero_add]
      exact Nat.mod_eq_of_lt (Nat.lt_succ_of_le
        (channelMeanLe cs _ (fun c => Nat.le_of_lt_succ c.r.isLt)))
    · simp only [foldlAddMap, Nat.zero_add]
      exact Nat.mod_eq_of_lt (Nat.lt_succ_of_le
        (channelMeanLe cs _ (fun c => Nat.le_of_lt_succ c.g.isLt)))
    · simp only [foldlAddMap, Nat.zero_add]
      exact Nat.mod_eq_of_lt (Nat.lt_succ_of_le
        (channelMeanLe cs _ (fun c => Nat.le_of_lt_succ c.b.isLt)))
  · intro c1 c2 c3 c4
    simp [Color.mix]

/-- Witness for C10's theorem at a concrete four-colour list: the mix of
`(10,20,30)`, `(20,30,40)`, `(30,40,50)`, `(40,50,60)` is defined and equals
`(25,35,45)`. -/
theorem colour_mix_mean_witness :
    ([(⟨10, 20, 30⟩ : Color), ⟨20, 30, 40⟩, ⟨30, 40, 50⟩, ⟨40, 50, 60⟩] ≠ ([] : List Color)) ∧
    (∃ c, Color.mix [(⟨10, 20, 30⟩ : Color), ⟨20, 30, 40⟩, ⟨30, 40, 50⟩, ⟨40, 50, 60⟩] = some c ∧
      (c.r : ℕ) = 25 ∧ (c.g : ℕ) = 35 ∧ (c.b : ℕ) = 45) := by
  refine ⟨by simp, ?_⟩
  have h :=
    (colour_mix_mean [(⟨10, 20, 30⟩ : Color), ⟨20, 30, 40⟩, ⟨30, 40, 50⟩, ⟨40, 50, 60⟩]).2.1
      (by simp)
  rcases h with ⟨c, hc, hr, hg, hb⟩
  exact ⟨c, hc, by rw [hr]; decide, by rw [hg]; decide, by rw [hb]; decide⟩

/-- C2 (code bug evaluation): subdividing the valid but non-cubic box
`[0,2] x [0,2] x [0,4]` produces children that do not cover the parent - the
point `(1/2, 3/2, 1/2)` lies in the parent box but in none of the 8 children,
because the top children's lower y bound is `y_min + half_z_distance = 2`
(the z half-extent) instead of `y_min + half_y_distance = 1`.  The parent box
is stored at index 0 and the 8 child boxes are the appended tail. -/
theorem subdivide_gap_eval :
    ((((Octree.new 0 2 0 2 0 4).subdivide 0).1.AABBs.getD 0 junkAABB).containsPointB
        ⟨1/2, 3/2, 1/2⟩ = true) ∧
    ((((Octree.new 0 2 0 2 0 4).subdivide 0).1.AABBs.drop 1).all
        (fun b => !(b.containsPointB ⟨1/2, 3/2, 1/2⟩)) = true) ∧
    ((((Octree.new 0 2 0 2 0 4).subdivide 0).1.AABBs.getD 5 junkAABB).min_coords.y = 2) ∧
    (((Octree.new 0 2 0 2 0 4).subdivide 0).2 = [1, 2, 3, 4, 5, 6, 7, 8]) := by
  exact ⟨by decide, by decide, by decide, by decide⟩

set_option maxRecDepth 4000 in
/-- C3 (code bug evaluation): on a fresh octree over `[0,2] x [0,2] x [0,4]`,
pushing `exC3a` and then `exC3b` - both of whose bounding boxes intersect the
root box - leaves the second triangle (index 1) assigned to no octant: the
subdivision triggered by the second push creates children that leave the y
range `(1, 2)` uncovered, so the re-insertion drops it.  The final
octant-to-triangle map holds only triangle 0, at the first child octant. -/
theorem push_triangle_lost_eval :
    ((AABB.from_triangle exC3a).intersects
        ((Octree.new 0 2 0 2 0 4).AABBs.getD 0 junkAABB) = true) ∧
    ((AABB.from_triangle exC3b).intersects
        ((Octree.new 0 2 0 2 0 4).AABBs.getD 0 junkAABB) = true) ∧
    ((Octree.push_triangle 5 (Octree.push_triangle 5 (Octree.new 0 2 0 2 0 4) exC3a)
        exC3b).triangles.length = 2) ∧
    ((Octree.push_triangle 5 (Octree.push_triangle 5 (Octree.new 0 2 0 2 0 4) exC3a)
        exC3b).octant_triangle_map = [(1, 0)]) ∧
    (((Octree.push_triangle 5 (Octree.push_triangle 5 (Octree.new 0 2 0 2 0 4) exC3a)
        exC3b).octant_triangle_map.map (fun p => p.2)).contains 1 = false) := by
  exact ⟨by decide, by decide, by decide, by decide, by decide⟩

theorem triangleFold_bound (r : Ray) (oct : AOctree) (max_t : F64) (tris : List ℕ) :
    ((tris.foldl (triangleFoldStep r oct) (max_t, none)).1 = max_t ∨
      F64.flt (tris.foldl (triangleFoldStep r oct) (max_t, none)).1 max_t = true) ∧
    (∀ ht, (tris.foldl (triangleFoldStep r oct) (max_t, none)).2 = some ht →
      F64.flt (F64.fin ht.t) max_t = true) := by
  apply foldlInvariant
    (P := fun st : F64 × Option RayTriangleIntersectionResult =>
      (st.1 = max_t ∨ F64.flt st.1 max_t = true) ∧
      ∀ ht, st.2 = some ht → F64.flt (F64.fin ht.t) max_t = true)
  · exact ⟨Or.inl rfl, by simp⟩
  · intro st ti _ hst
    unfold triangleFoldStep
    cases hmt : r.intersect_with_triangle (oct.triangles.getD ti junkTriangle) with
    | none => exact hst
    | some tri =>
      by_cases hlt : F64.flt (F64.fin tri.t) st.1 = true
      · have hm : F64.flt (F64.fin tri.t) max_t = true := by
          rcases hst.1 with he | hlt2
          · rw [he] at hlt; exact hlt
          · exact F64.flt_trans hlt hlt2
        simp only [hlt, if_true]
        refine ⟨Or.inr hm, ?_⟩
        intro ht hht
        cases hht
        exact hm
      · simp only [hlt, if_false]
        exact hst

theorem triangleFold_sound (r : Ray) (oct : AOctree) (max_t : F64) (tris : List ℕ)
    (hb : ∀ ti ∈ tris, ti < oct.triangles.length) :
    ∀ ht, (tris.foldl (triangleFoldStep r oct) (max_t, none)).2 = some ht →
      ∃ tri, tri ∈ oct.triangles ∧ r.intersect_with_triangle tri = some ht := by
  apply foldlInvariant
    (P := fun st : F64 × Option RayTriangleIntersectionResult =>
      ∀ ht, st.2 = some ht →
        ∃ tri, tri ∈ oct.triangles ∧ r.intersect_with_triangle tri = some ht)
  · simp
  · intro st ti hti hst
    unfold triangleFoldStep
    cases hmt : r.intersect_with_triangle (oct.triangles.getD ti junkTriangle) with
    | none => exact hst
    | some tri =>
      by_cases hlt : F64.flt (F64.fin tri.t) st.1 = true
      · simp only [hlt, if_true]
        intro ht hht
        cases hht
        refine ⟨oct.triangles.getD ti junkTriangle, ?_, hmt⟩
        rw [List.getD_eq_getElem oct.triangles junkTriangle (hb ti hti)]
        exact List.getElem_mem _
      · simp only [hlt, if_false]
        exact hst

theorem firstChildHit_exists (visit : ℕ → Option RayTriangleIntersectionResult) :
    ∀ (l : List (F64 × ℕ)) (ht : RayTriangleIntersectionResult),
      firstChildHit visit l = some ht → ∃ p, p ∈ l ∧ visit p.2 = some ht
  | [], ht, h => by simp [firstChildHit] at h
  | p :: rest, ht, h => by
    rw [firstChildHit] at h
    cases hv : visit p.2 with
    | some rti =>
      rw [hv] at h
      exact ⟨p, by simp, by rw [hv, ← h]⟩
    | none =>
      rw [hv] at h
      rcases firstChildHit_exists visit rest ht h with ⟨q, hq, hvq⟩
      exact ⟨q, by simp [hq], hvq⟩

/-- C4: every hit returned by `intersect_with_octant_with_max_t` - whether it
comes from a triangle stored at the node or from the recursion into a child
octant - has distance strictly below `max_t` (in particular below every
finite bound); no triangle at distance at or beyond `max_t` is ever
reported. -/
theorem intersect_with_octant_respects_max_t
    (fuel octant_index : ℕ) (oct : AOctree) (r : Ray) (max_t : F64)
    (hit : RayTriangleIntersectionResult)
    (h : r.intersect_with_octant_with_max_t oct fuel octant_index max_t = some hit) :
    F64.flt (F64.fin hit.t) max_t = true := by
  cases fuel with
  | zero => simp [Ray.intersect_with_octant_with_max_t] at h
  | succ fuel =>
    simp only [Ray.intersect_with_octant_with_max_t] at h
    split_ifs at h with h0 h1
    · -- a child hit is returned only when it beats the fold's closest bound
      rw [h] at h1
      unfold childHitDistance at h1
      rcases (triangleFold_bound r oct max_t
        ((oct.nodes.getD octant_index junkNode).triangles)).1 with he | hflt
      · rw [he] at h1; exact h1
      · exact F64.flt_trans h1 hflt
    · exact (triangleFold_bound r oct max_t
        ((oct.nodes.getD octant_index junkNode).triangles)).2 hit h

/-- Witness for C4's theorem: on the one-triangle octree `exC4oct` the query
with bound 2 along the z axis returns the hit at distance 1, and 1 < 2. -/
theorem intersect_with_octant_respects_max_t_witness :
    F64.flt (F64.fin (1 : ℚ)) (F64.fin 2) = true :=
  intersect_with_octant_respects_max_t 2 0 exC4oct ⟨⟨0, 0, 0⟩, ⟨0, 0, 1⟩⟩ (F64.fin 2)
    ⟨1, 1/4, 1/2, exTz⟩ (by decide)

/-- C1 counterexample: on the structurally valid octree `exC1oct` (root box
split into its 8 canonical octants, each triangle stored in every leaf its
bounding box intersects, subtree counts correct) and the axis ray `exC1ray`,
the traversal starting at the root returns the hit at distance 6 - found in
the first (nearest) child box via the early exit - while the brute-force
scan over all stored triangles finds a hit at distance 7/2 in a farther
sibling.  The traversal therefore does not return the triangle hit with the
smallest distance. -/
theorem octant_traversal_not_nearest_counterexample :
    exC1oct.wellFormed = true ∧
    ((exC1ray.intersect_with_octant exC1oct 0).map (fun h => h.t)) = some 6 ∧
    ((bruteForceClosestHit exC1ray exC1oct.triangles).map (fun h => h.t)) = some (7/2) ∧
    (6 : ℚ) ≠ 7/2 :=
  ⟨by decide, by decide, by decide, by decide⟩

/-- C1 (amended): the traversal is sound - on a well-formed octree, any hit
it returns is the Moeller-Trumbore intersection of some triangle stored in
the octree - but it is not guaranteed to be the nearest one (see the
counterexample). -/
theorem intersect_with_octant_sound :
    ∀ (fuel octant_index : ℕ) (oct : AOctree) (r : Ray) (max_t : F64)
      (hit : RayTriangleIntersectionResult),
      oct.wellFormed = true →
      r.intersect_with_octant_with_max_t oct fuel octant_index max_t = some hit →
      ∃ tri, tri ∈ oct.triangles ∧ r.intersect_with_triangle tri = some hit := by
  intro fuel
  induction fuel with
  | zero =>
    intro i oct r max_t hit hwf h
    simp [Ray.intersect_with_octant_with_max_t] at h
  | succ fuel ih =>
    intro i oct r max_t hit hwf h
    simp only [Ray.intersect_with_octant_with_max_t] at h
    split_ifs at h with h0 h1
    · rcases firstChildHit_exists _ _ _ h with ⟨p, hp, hv⟩
      exact ih p.2 oct r F64.pinf hit hwf hv
    · by_cases hi : i < oct.nodes.length
      · refine triangleFold_sound r oct max_t _ ?_ hit h
        intro ti hti
        have hmem : oct.nodes.getD i junkNode ∈ oct.nodes := by
          rw [List.getD_eq_getElem oct.nodes junkNode hi]
          exact List.getElem_mem _
        have hwf2 := (List.all_eq_true.mp hwf) _ hmem
        have := (List.all_eq_true.mp hwf2) ti hti
        simpa using this
      · exfalso
        apply h0
        rw [List.getD_eq_default oct.nodes junkNode (Nat.le_of_not_lt hi)]
        rfl

/-- Witness for C1's amended theorem at the counterexample octree: the hit
the traversal returns (distance 6) is a genuine intersection of the stored
triangle `exT1`. -/
theorem intersect_with_octant_sound_witness :
    exC1oct.wellFormed = true ∧
    ∃ tri, tri ∈ exC1oct.triangles ∧
      exC1ray.intersect_with_triangle tri = some ⟨6, 1/2, 1/2, exT1⟩ :=
  ⟨by decide,
   intersect_with_octant_sound 3 0 exC1oct exC1ray F64.pinf ⟨6, 1/2, 1/2, exT1⟩
     (by decide) (by decide)⟩

theorem vecAddDef (a b : Vector3d) : a + b = ⟨a.x + b.x, a.y + b.y, a.z + b.z⟩ := rfl

theorem vecAddZero (a : Vector3d) : a + ⟨0, 0, 0⟩ = a := by
  cases a
  simp [vecAddDef]

theorem vecZeroAdd (a : Vector3d) : (⟨0, 0, 0⟩ : Vector3d) + a = a := by
  cases a
  simp [vecAddDef]

theorem vecAddAssoc (a b c : Vector3d) : a + b + c = a + (b + c) := by
  cases a
  cases b
  cases c
  simp only [vecAddDef, Vector3d.mk.injEq]
  exact ⟨add_assoc _ _ _, add_assoc _ _ _, add_assoc _ _ _⟩

theorem vecAddAssoc2 (a b c d : Vector3d) : a + b + c + d = a + (b + c + d) := by
  rw [vecAddAssoc a b c, vecAddAssoc a (b + c) d]

theorem lightingLoop_prefix_sum (rt : RayTracer) (p n v : Vector3d) (mat : Material) :
    ∀ (lights : List Light) (acc : Vector3d),
      rt.lightingLoop p n v mat lights acc =
        acc + ((lights.takeWhile fun l => !(isBlockedPointLight rt p n l)).map
          (codeLightContribution rt p n v mat)).foldr (fun a b => a + b) ⟨0, 0, 0⟩
  | [], acc => by
    simp only [RayTracer.lightingLoop, List.takeWhile_nil, List.map_nil, List.foldr_nil]
    exact (vecAddZero acc).symm
  | Light.Ambient intensity :: rest, acc => by
    rw [List.takeWhile_cons_of_pos (by simp [isBlockedPointLight])]
    simp only [RayTracer.lightingLoop, List.map_cons, List.foldr_cons, codeLightContribution]
    rw [lightingLoop_prefix_sum rt p n v mat rest]
    exact vecAddAssoc _ _ _
  | Light.Directional intensity direction :: rest, acc => by
    rw [List.takeWhile_cons_of_pos (by simp [isBlockedPointLight])]
    simp only [RayTracer.lightingLoop, List.map_cons, List.foldr_cons, codeLightContribution]
    rw [lightingLoop_prefix_sum rt p n v mat rest]
    exact vecAddAssoc2 _ _ _ _
  | Light.Point intensity position :: rest, acc => by
    cases hb : rt.triangle_exists_between_points p n position with
    | false =>
      rw [List.takeWhile_cons_of_neg (by simp [isBlockedPointLight, hb])]
      simp only [RayTracer.lightingLoop, hb, Bool.not_false, if_true, List.map_nil,
        List.foldr_nil]
      exact (vecAddZero acc).symm
    | true =>
      rw [List.takeWhile_cons_of_pos (by simp [isBlockedPointLight, hb])]
      simp only [RayTracer.lightingLoop, hb, Bool.not_true, Bool.false_eq_true, if_false,
        List.map_cons, List.foldr_cons, codeLightContribution, if_true]
      rw [lightingLoop_prefix_sum rt p n v mat rest]
      exact vecAddAssoc2 _ _ _ _

/-- C5 (amended): the light loop of `compute_lighting_intensity` is NOT
independent per light - it sums, in order, the contributions of the longest
prefix of the light list containing no blocked point light (ambient lights
unconditionally, directional lights with no shadow test at all, point lights
when their shadow ray is unblocked), and a blocked point light ends the loop,
so every light after it contributes nothing. -/
theorem lighting_intensity_stops_at_blocked_point_light
    (rt : RayTracer) (p n v : Vector3d) (mat : Material) :
    rt.compute_lighting_intensity p n v mat =
      ((rt.lights.takeWhile fun l => !(isBlockedPointLight rt p n l)).map
        (codeLightContribution rt p n v mat)).foldr (fun a b => a + b) ⟨0, 0, 0⟩ := by
  unfold RayTracer.compute_lighting_intensity
  rw [lightingLoop_prefix_sum]
  exact vecZeroAdd _

/-- C5 counterexample: in `exC5rt` the point light at `z = 2` is occluded by
the triangle at `z = 1`, and an ambient light of intensity 1 follows it in
the light list.  The source loop `break`s on the blocked point light and
returns the zero intensity, whereas under the claimed per-light independence
(the spec model) the ambient light still contributes its coefficient-weighted
intensity `(1,1,1)`. -/
theorem lighting_break_counterexample :
    exC5rt.compute_lighting_intensity ⟨0, 0, 0⟩ ⟨0, 0, 1⟩ ⟨0, 0, 1⟩ exC5mat = ⟨0, 0, 0⟩ ∧
    computeLightingIntensitySpec exC5rt ⟨0, 0, 0⟩ ⟨0, 0, 1⟩ ⟨0, 0, 1⟩ exC5mat = ⟨1, 1, 1⟩ ∧
    ((⟨0, 0, 0⟩ : Vector3d) ≠ ⟨1, 1, 1⟩) :=
  ⟨by decide, by decide, by decide⟩

theorem reflection_bounces_le (rt : RayTracer) (origin direction : Vector3d) (depth : ℕ) :
    (rt.get_ray_colour_recursive origin direction depth).2 ≤ MAX_REFLECTION_DEPTH - depth := by
  induction origin, direction, depth using RayTracer.get_ray_colour_recursive.induct rt with
  | case1 o d dep ray ires hq p tex w tx ty txi tyi nv refl hc ddn rdir rorig IH =>
    rw [RayTracer.get_ray_colour_recursive.eq_def]
    simp only [hq]
    rw [dif_pos hc]
    show (rt.get_ray_colour_recursive rorig rdir (dep + 1)).2 + 1 ≤ MAX_REFLECTION_DEPTH - dep
    have hd := hc.2
    omega
  | case2 o d dep ray ires hq refl hc =>
    rw [RayTracer.get_ray_colour_recursive.eq_def]
    simp only [hq]
    rw [dif_neg hc]
    simp
  | case3 o d dep ray hq =>
    rw [RayTracer.get_ray_colour_recursive.eq_def]
    simp [hq]

/-- C6: the reflection recursion of `get_ray_colour_recursive` is bounded -
the number of reflection bounces a call at `depth` performs never exceeds
`MAX_REFLECTION_DEPTH - depth` (the recursion only continues while
`depth < MAX_REFLECTION_DEPTH` and increments the counter), so a top-level
`get_ray_colour` call performs at most 5 bounces; the definition itself is
total, so rendering terminates for every origin, direction and scene,
mutually facing mirrors included. -/
theorem reflection_depth_capped (rt : RayTracer) (origin direction : Vector3d) (depth : ℕ) :
    (rt.get_ray_colour_recursive origin direction depth).2 ≤ MAX_REFLECTION_DEPTH - depth ∧
    (rt.get_ray_colour_recursive origin direction 0).2 ≤ MAX_REFLECTION_DEPTH :=
  ⟨reflection_bounces_le rt origin direction depth,
   reflection_bounces_le rt origin direction 0⟩

/-- C8: `get_ray_colour` is total over `Color`, and whenever the octree query
finds no triangle hit the result is the background white `(255,255,255)` -
there is no error or absent-result state visible to the caller. -/
theorem miss_returns_background_white (rt : RayTracer) (origin direction : Vector3d)
    (h : Ray.intersect_with_octant ⟨origin, direction⟩ rt.scene_data.octree 0 = none) :
    rt.get_ray_colour origin direction = WHITE := by
  unfold RayTracer.get_ray_colour
  rw [RayTracer.get_ray_colour_recursive.eq_def]
  simp [h]

/-- Witness for C8's theorem on a scene whose octree holds no triangles: the
query misses and the colour is white. -/
theorem miss_returns_background_white_witness :
    exC8rt.get_ray_colour ⟨0, 0, 0⟩ ⟨0, 0, 1⟩ = WHITE :=
  miss_returns_background_white exC8rt ⟨0, 0, 0⟩ ⟨0, 0, 1⟩ (by decide)

theorem F64.fle_refl {a : F64} (h : a ≠ F64.nan) : F64.fle a a = true := by
  cases a <;> simp_all [F64.fle]

theorem F64.fle_trans {a b c : F64} (h1 : F64.fle a b = true) (h2 : F64.fle b c = true) :
    F64.fle a c = true := by
  cases a <;> cases b <;> cases c <;> simp_all [F64.fle]
  linarith

theorem F64.fle_of_flt {a b : F64} (h : F64.flt a b = true) : F64.fle a b = true := by
  cases a <;> cases b <;> simp_all [F64.flt, F64.fle]
  linarith

theorem F64.flt_asymm {a b : F64} (h : F64.flt a b = true) : F64.flt b a = false := by
  cases a <;> cases b <;> simp_all [F64.flt]
  linarith

theorem F64.flt_of_fle_of_flt {a b c : F64} (h1 : F64.fle a b = true)
    (h2 : F64.flt b c = true) : F64.flt a c = true := by
  cases a <;> cases b <;> cases c <;> simp_all [F64.flt, F64.fle]
  linarith

theorem F64.flt_of_flt_of_fle {a b c : F64} (h1 : F64.flt a b = true)
    (h2 : F64.fle b c = true) : F64.flt a c = true := by
  cases a <;> cases b <;> cases c <;> simp_all [F64.flt, F64.fle]
  linarith

theorem F64.fmax_nan_right (a : F64) : F64.fmax a F64.nan = a := by
  cases a <;> rfl

theorem F64.fmax_nan_left (b : F64) : F64.fmax F64.nan b = b := by
  cases b <;> rfl

theorem F64.fmin_nan_right (a : F64) : F64.fmin a F64.nan = a := by
  cases a <;> rfl

theorem F64.fmin_nan_left (b : F64) : F64.fmin F64.nan b = b := by
  cases b <;> rfl

theorem F64.fmax_eq_ite {a b : F64} (ha : a ≠ F64.nan) (hb : b ≠ F64.nan) :
    F64.fmax a b = if F64.fle a b = true then b else a := by
  cases a <;> cases b <;> simp_all [F64.fmax]

theorem F64.fmin_eq_ite {a b : F64} (ha : a ≠ F64.nan) (hb : b ≠ F64.nan) :
    F64.fmin a b = if F64.fle a b = true then a else b := by
  cases a <;> cases b <;> simp_all [F64.fmin]

theorem F64.fmax_cases (a b : F64) : F64.fmax a b = a ∨ F64.fmax a b = b := by
  by_cases ha : a = F64.nan
  · subst ha
    exact Or.inr (F64.fmax_nan_left b)
  · by_cases hb : b = F64.nan
    · subst hb
      exact Or.inl (F64.fmax_nan_right a)
    · rw [F64.fmax_eq_ite ha hb]
      split_ifs <;> simp

theorem F64.fmin_cases (a b : F64) : F64.fmin a b = a ∨ F64.fmin a b = b := by
  by_cases ha : a = F64.nan
  · subst ha
    exact Or.inr (F64.fmin_nan_left b)
  · by_cases hb : b = F64.nan
    · subst hb
      exact Or.inl (F64.fmin_nan_right a)
    · rw [F64.fmin_eq_ite ha hb]
      split_ifs <;> simp

theorem F64.fmax_nan_iff (a b : F64) : F64.fmax a b = F64.nan ↔ a = F64.nan ∧ b = F64.nan := by
  by_cases ha : a = F64.nan
  · subst ha
    simp [F64.fmax_nan_left]
  · by_cases hb : b = F64.nan
    · subst hb
      simp [F64.fmax_nan_right, ha]
    · rw [F64.fmax_eq_ite ha hb]
      split_ifs <;> simp_all

theorem F64.fmin_nan_iff (a b : F64) : F64.fmin a b = F64.nan ↔ a = F64.nan ∧ b = F64.nan := by
  by_cases ha : a = F64.nan
  · subst ha
    simp [F64.fmin_nan_left]
  · by_cases hb : b = F64.nan
    · subst hb
      simp [F64.fmin_nan_right, ha]
    · rw [F64.fmin_eq_ite ha hb]
      split_ifs <;> simp_all

theorem F64.fle_total {a b : F64} (ha : a ≠ F64.nan) (hb : b ≠ F64.nan) :
    F64.fle a b = true ∨ F64.fle b a = true := by
  cases a <;> cases b <;> simp_all [F64.fle]
  exact le_total _ _

theorem F64.fle_fmax_left {a : F64} (b : F64) (ha : a ≠ F64.nan) :
    F64.fle a (F64.fmax a b) = true := by
  by_cases hb : b = F64.nan
  · subst hb
    rw [F64.fmax_nan_right]
    exact F64.fle_refl ha
  · rw [F64.fmax_eq_ite ha hb]
    split_ifs with h
    · exact h
    · exact F64.fle_refl ha

theorem F64.fle_fmax_right (a : F64) {b : F64} (hb : b ≠ F64.nan) :
    F64.fle b (F64.fmax a b) = true := by
  by_cases ha : a = F64.nan
  · subst ha
    rw [F64.fmax_nan_left]
    exact F64.fle_refl hb
  · rw [F64.fmax_eq_ite ha hb]
    split_ifs with h
    · exact F64.fle_refl hb
    · rcases F64.fle_total hb ha with h2 | h2
      · exact h2
      · exact absurd h2 h

theorem F64.fmin_fle_left {a : F64} (b : F64) (ha : a ≠ F64.nan) :
    F64.fle (F64.fmin a b) a = true := by
  by_cases hb : b = F64.nan
  · subst hb
    rw [F64.fmin_nan_right]
    exact F64.fle_refl ha
  · rw [F64.fmin_eq_ite ha hb]
    split_ifs with h
    · exact F64.fle_refl ha
    · rcases F64.fle_total hb ha with h2 | h2
      · exact h2
      · exact absurd h2 h

theorem F64.fmin_fle_right (a : F64) {b : F64} (hb : b ≠ F64.nan) :
    F64.fle (F64.fmin a b) b = true := by
  by_cases ha : a = F64.nan
  · subst ha
    rw [F64.fmin_nan_left]
    exact F64.fle_refl hb
  · rw [F64.fmin_eq_ite ha hb]
    split_ifs with h
    · exact h
    · exact F64.fle_refl hb

theorem F64.fmin_fin (x y : ℚ) : F64.fmin (F64.fin x) (F64.fin y) = F64.fin (min x y) := by
  rw [F64.fmin_eq_ite (by simp) (by simp)]
  simp only [F64.fle, decide_eq_true_eq]
  split_ifs with h
  · rw [min_eq_left h]
  · rw [min_eq_right (le_of_lt (lt_of_not_le h))]

theorem F64.fmax_fin (x y : ℚ) : F64.fmax (F64.fin x) (F64.fin y) = F64.fin (max x y) := by
  rw [F64.fmax_eq_ite (by simp) (by simp)]
  simp only [F64.fle, decide_eq_true_eq]
  split_ifs with h
  · rw [max_eq_right h]
  · rw [max_eq_left (le_of_lt (lt_of_not_le h))]

theorem F64.fmax_flt_of {a b c : F64} (h1 : F64.flt a c = true) (h2 : F64.flt b c = true) :
    F64.flt (F64.fmax a b) c = true := by
  rcases F64.fmax_cases a b with h | h <;> rw [h] <;> assumption

theorem F64.flt_fmin_of {a b c : F64} (h1 : F64.flt c a = true) (h2 : F64.flt c b = true) :
    F64.flt c (F64.fmin a b) = true := by
  rcases F64.fmin_cases a b with h | h <;> rw [h] <;> assumption

theorem F64.flt_pinf_iff (x : F64) :
    F64.flt x F64.pinf = true ↔ x ≠ F64.nan ∧ x ≠ F64.pinf := by
  cases x <;> simp [F64.flt]

theorem F64.fmax_eq_pinf {a b : F64} (h : F64.fmax a b = F64.pinf) :
    a = F64.pinf ∨ b = F64.pinf := by
  rcases F64.fmax_cases a b with h2 | h2 <;> rw [h2] at h <;> simp [h]

theorem F64.fmin_eq_pinf {a b : F64} (h : F64.fmin a b = F64.pinf) :
    (a = F64.pinf ∨ a = F64.nan) ∧ (b = F64.pinf ∨ b = F64.nan) := by
  by_cases ha : a = F64.nan
  · subst ha
    rw [F64.fmin_nan_left] at h
    simp [h]
  · by_cases hb : b = F64.nan
    · subst hb
      rw [F64.fmin_nan_right] at h
      simp [h]
    · rw [F64.fmin_eq_ite ha hb] at h
      split_ifs at h with h2
    
      · subst h
        rcases b with _ | _ | _ | q <;> simp_all [F64.fle]
      · subst h
        rcases a with _ | _ | _ | q <;> simp_all [F64.fle]

theorem F64.fdiv_eq_fin {n d : ℚ} (h : d ≠ 0) : F64.fdiv n d = F64.fin (n / d) := by
  simp [F64.fdiv, h]

theorem F64.fdiv_nan_iff (n d : ℚ) : F64.fdiv n d = F64.nan ↔ d = 0 ∧ n = 0 := by
  unfold F64.fdiv
  split_ifs with h1 h2 h3 <;> simp_all
  all_goals linarith

theorem F64.fdiv_not_fin_imp {n d : ℚ}
    (h : F64.fdiv n d = F64.pinf ∨ F64.fdiv n d = F64.nan) : d = 0 := by
  unfold F64.fdiv at h
  rcases h with h | h <;> split_ifs at h <;> simp_all

theorem fdivZeroPos {n : ℚ} (h : 0 < n) : F64.fdiv n 0 = F64.pinf := by
  unfold F64.fdiv
  rw [if_pos rfl, if_pos h]

theorem fdivZeroNeg {n : ℚ} (h : n < 0) : F64.fdiv n 0 = F64.ninf := by
  unfold F64.fdiv
  rw [if_pos rfl, if_neg (by linarith), if_pos h]

theorem axisStrict (o lo hi dv : ℚ) (h1 : lo < o) (h2 : o < hi) :
    F64.flt (F64.fmin (F64.fdiv (lo - o) dv) (F64.fdiv (hi - o) dv)) (F64.fin 0) = true ∧
    F64.flt (F64.fin 0) (F64.fmax (F64.fdiv (lo - o) dv) (F64.fdiv (hi - o) dv)) = true := by
  rcases lt_trichotomy dv 0 with hneg | hz | hpos
  · rw [F64.fdiv_eq_fin (ne_of_lt hneg), F64.fdiv_eq_fin (ne_of_lt hneg),
      F64.fmin_fin, F64.fmax_fin]
    constructor
    · simp only [F64.flt, decide_eq_true_eq]
      have hd : (hi - o) / dv < 0 := div_neg_of_pos_of_neg (by linarith) hneg
      exact lt_of_le_of_lt (min_le_right _ _) hd
    · simp only [F64.flt, decide_eq_true_eq]
      have hd : 0 < (lo - o) / dv := div_pos_of_neg_of_neg (by linarith) hneg
      exact lt_of_lt_of_le hd (le_max_left _ _)
  · subst hz
    rw [fdivZeroNeg (by linarith), fdivZeroPos (by linarith)]
    exact ⟨by decide, by decide⟩
  · rw [F64.fdiv_eq_fin (ne_of_gt hpos), F64.fdiv_eq_fin (ne_of_gt hpos),
      F64.fmin_fin, F64.fmax_fin]
    constructor
    · simp only [F64.flt, decide_eq_true_eq]
      have hd : (lo - o) / dv < 0 := div_neg_of_neg_of_pos (by linarith) hpos
      exact lt_of_le_of_lt (min_le_left _ _) hd
    · simp only [F64.flt, decide_eq_true_eq]
      have hd : 0 < (hi - o) / dv := div_pos (by linarith) hpos
      exact lt_of_lt_of_le hd (le_max_right _ _)

theorem intersect_aabb_inside (r : Ray) (b : Aabb) (h : b.strictlyContains r.origin) :
    ∃ res, r.intersect_aabb b = some res ∧ F64.fle (F64.fin 0) res.t = true := by
  obtain ⟨h1, h2, h3, h4, h5, h6⟩ := h
  have hx := axisStrict r.origin.x b.min_coords.x b.max_coords.x r.direction.x h1 h2
  have hy := axisStrict r.origin.y b.min_coords.y b.max_coords.y r.direction.y h3 h4
  have hz := axisStrict r.origin.z b.min_coords.z b.max_coords.z r.direction.z h5 h6
  have htmin : F64.flt (r.slabTmin b) (F64.fin 0) = true :=
    F64.fmax_flt_of (F64.fmax_flt_of hx.1 hy.1) hz.1
  have htmax : F64.flt (F64.fin 0) (r.slabTmax b) = true :=
    F64.flt_fmin_of (F64.flt_fmin_of hx.2 hy.2) hz.2
  have g1 : F64.flt (r.slabTmax b) (F64.fin 0) = false := F64.flt_asymm htmax
  have g2 : F64.flt (r.slabTmax b) (r.slabTmin b) = false :=
    F64.flt_asymm (F64.flt_trans htmin htmax)
  refine ⟨⟨r.slabTmax b⟩, ?_, F64.fle_of_flt htmax⟩
  simp only [Ray.intersect_aabb]
  rw [if_neg (by simp [g1]), if_neg (by simp [g2]), if_pos (by simp [htmin])]

theorem axisMembership (o lo hi dv q : ℚ) (hlohi : lo ≤ hi)
    (hm : F64.fmin (F64.fdiv (lo - o) dv) (F64.fdiv (hi - o) dv) = F64.nan ∨
      F64.fle (F64.fmin (F64.fdiv (lo - o) dv) (F64.fdiv (hi - o) dv)) (F64.fin q) = true)
    (hM : F64.fmax (F64.fdiv (lo - o) dv) (F64.fdiv (hi - o) dv) = F64.nan ∨
      F64.fle (F64.fin q) (F64.fmax (F64.fdiv (lo - o) dv) (F64.fdiv (hi - o) dv)) = true) :
    lo ≤ o + dv * q ∧ o + dv * q ≤ hi := by
  by_cases hnan : F64.fmin (F64.fdiv (lo - o) dv) (F64.fdiv (hi - o) dv) = F64.nan
  · rcases (F64.fmin_nan_iff _ _).mp hnan with ⟨ht1, ht2⟩
    rcases (F64.fdiv_nan_iff _ _).mp ht1 with ⟨hd, hlo⟩
    rcases (F64.fdiv_nan_iff _ _).mp ht2 with ⟨hd2, hhi⟩
    subst hd
    constructor
    · nlinarith [hlo]
    · nlinarith [hhi]
  · have hMnan : F64.fmax (F64.fdiv (lo - o) dv) (F64.fdiv (hi - o) dv) ≠ F64.nan := by
      intro hc
      rcases (F64.fmax_nan_iff _ _).mp hc with ⟨ht1, ht2⟩
      exact hnan ((F64.fmin_nan_iff _ _).mpr ⟨ht1, ht2⟩)
    rcases hm with hm | hm
    · exact absurd hm hnan
    rcases hM with hM | hM
    · exact absurd hM hMnan
    rcases lt_trichotomy dv 0 with hneg | hzero | hpos
    · rw [F64.fdiv_eq_fin (ne_of_lt hneg), F64.fdiv_eq_fin (ne_of_lt hneg), F64.fmin_fin] at hm
      rw [F64.fdiv_eq_fin (ne_of_lt hneg), F64.fdiv_eq_fin (ne_of_lt hneg), F64.fmax_fin] at hM
      simp only [F64.fle, decide_eq_true_eq] at hm hM
      have h21 : (hi - o) / dv ≤ (lo - o) / dv :=
        div_le_div_of_nonpos_of_le (le_of_lt hneg) (by linarith)
      rw [min_eq_right h21] at hm
      rw [max_eq_left h21] at hM
      have hup : q * dv ≤ hi - o := (div_le_iff_of_neg hneg).mp hm
      have hlow : lo - o ≤ q * dv := (le_div_iff_of_neg hneg).mp hM
      constructor
      · nlinarith [hlow]
      · nlinarith [hup]
    · subst hzero
      by_cases ho1 : o < lo
      · rw [fdivZeroPos (by linarith), fdivZeroPos (by linarith)] at hm
        simp [F64.fmin, F64.fle] at hm
      · by_cases ho2 : hi < o
        · rw [fdivZeroNeg (by linarith), fdivZeroNeg (by linarith)] at hM
          simp [F64.fmax, F64.fle] at hM
        · constructor
          · nlinarith [le_of_not_lt ho1]
          · nlinarith [le_of_not_lt ho2]
    · rw [F64.fdiv_eq_fin (ne_of_gt hpos), F64.fdiv_eq_fin (ne_of_gt hpos), F64.fmin_fin] at hm
      rw [F64.fdiv_eq_fin (ne_of_gt hpos), F64.fdiv_eq_fin (ne_of_gt hpos), F64.fmax_fin] at hM
      simp only [F64.fle, decide_eq_true_eq] at hm hM
      have h12 : (lo - o) / dv ≤ (hi - o) / dv :=
        div_le_div_of_nonneg_right (by linarith) (le_of_lt hpos)
      rw [min_eq_left h12] at hm
      rw [max_eq_right h12] at hM
      have hlow : lo - o ≤ q * dv := (div_le_iff₀ hpos).mp hm
      have hup : q * dv ≤ hi - o := (le_div_iff₀ hpos).mp hM
      constructor
      · nlinarith [hlow]
      · nlinarith [hup]

theorem slabTmin_eq (r : Ray) (b : Aabb) :
    r.slabTmin b =
      F64.fmax
        (F64.fmax (axisSlabMin r.origin.x b.min_coords.x b.max_coords.x r.direction.x)
          (axisSlabMin r.origin.y b.min_coords.y b.max_coords.y r.direction.y))
        (axisSlabMin r.origin.z b.min_coords.z b.max_coords.z r.direction.z) := rfl

theorem slabTmax_eq (r : Ray) (b : Aabb) :
    r.slabTmax b =
      F64.fmin
        (F64.fmin (axisSlabMax r.origin.x b.min_coords.x b.max_coords.x r.direction.x)
          (axisSlabMax r.origin.y b.min_coords.y b.max_coords.y r.direction.y))
        (axisSlabMax r.origin.z b.min_coords.z b.max_coords.z r.direction.z) := rfl

theorem axisSlabMin_nan_imp {o lo hi dv : ℚ} (h : axisSlabMin o lo hi dv = F64.nan) :
    dv = 0 := by
  rcases (F64.fmin_nan_iff _ _).mp h with ⟨h1, _⟩
  exact ((F64.fdiv_nan_iff _ _).mp h1).1

theorem axisSlabMax_nan_imp {o lo hi dv : ℚ} (h : axisSlabMax o lo hi dv = F64.nan) :
    axisSlabMin o lo hi dv = F64.nan := by
  rcases (F64.fmax_nan_iff _ _).mp h with ⟨h1, h2⟩
  exact (F64.fmin_nan_iff _ _).mpr ⟨h1, h2⟩

theorem axisSlabMax_pinf_or_nan_imp {o lo hi dv : ℚ}
    (h : axisSlabMax o lo hi dv = F64.pinf ∨ axisSlabMax o lo hi dv = F64.nan) : dv = 0 := by
  rcases h with h | h
  · rcases F64.fmax_eq_pinf h with h2 | h2
    · exact F64.fdiv_not_fin_imp (Or.inl h2)
    · exact F64.fdiv_not_fin_imp (Or.inl h2)
  · exact axisSlabMin_nan_imp (axisSlabMax_nan_imp h)

theorem vecSubDef (a b : Vector3d) : a - b = ⟨a.x - b.x, a.y - b.y, a.z - b.z⟩ := rfl

theorem vecMulDef (a : Vector3d) (k : ℚ) : a * k = ⟨a.x * k, a.y * k, a.z * k⟩ := rfl

theorem intersect_aabb_behind (r : Ray) (b : Aabb) (hvalid : b.valid)
    (hbehind : ∀ p, b.containsPoint p → (p - r.origin).dot r.direction < 0) :
    r.intersect_aabb b = none := by
  obtain ⟨hv1, hv2, hv3⟩ := hvalid
  have hmincontains : b.containsPoint b.min_coords :=
    ⟨le_refl _, hv1, le_refl _, hv2, le_refl _, hv3⟩
  have hdirnonzero : ¬(r.direction.x = 0 ∧ r.direction.y = 0 ∧ r.direction.z = 0) := by
    rintro ⟨e1, e2, e3⟩
    have hd := hbehind _ hmincontains
    unfold Vector3d.dot at hd
    rw [e1, e2, e3] at hd
    simp at hd
  have key : ∀ q : ℚ, 0 ≤ q → b.containsPoint (r.pointAt q) → False := by
    intro q hq hin
    have hd := hbehind _ hin
    have he : (r.pointAt q - r.origin).dot r.direction =
        q * (r.direction.dot r.direction) := by
      unfold Ray.pointAt
      rw [vecAddDef, vecMulDef, vecSubDef]
      unfold Vector3d.dot
      ring
    rw [he] at hd
    have hdd : 0 ≤ r.direction.dot r.direction := by
      unfold Vector3d.dot
      exact add_nonneg (add_nonneg (mul_self_nonneg _) (mul_self_nonneg _)) (mul_self_nonneg _)
    linarith [mul_nonneg hq hdd]
  simp only [Ray.intersect_aabb]
  by_cases g1 : F64.flt (r.slabTmax b) (F64.fin 0) = true
  · rw [if_pos g1]
  rw [if_neg g1]
  by_cases g2 : F64.flt (r.slabTmax b) (r.slabTmin b) = true
  · rw [if_pos g2]
  rw [if_neg g2]
  exfalso
  have htmaxnan : ¬(r.slabTmax b = F64.nan) := by
    intro hc
    rw [slabTmax_eq] at hc
    rcases (F64.fmin_nan_iff _ _).mp hc with ⟨hc1, hcz⟩
    rcases (F64.fmin_nan_iff _ _).mp hc1 with ⟨hcx, hcy⟩
    exact hdirnonzero
      ⟨axisSlabMin_nan_imp (axisSlabMax_nan_imp hcx),
       axisSlabMin_nan_imp (axisSlabMax_nan_imp hcy),
       axisSlabMin_nan_imp (axisSlabMax_nan_imp hcz)⟩
  have finish : ∀ q : ℚ, 0 ≤ q → F64.fle (r.slabTmin b) (F64.fin q) = true →
      F64.fle (F64.fin q) (r.slabTmax b) = true → False := by
    intro q hq hle1 hle2
    rw [slabTmin_eq] at hle1
    rw [slabTmax_eq] at hle2
    have axm : ∀ (o lo hi dv : ℚ),
        (axisSlabMin o lo hi dv ≠ F64.nan →
          F64.fle (axisSlabMin o lo hi dv)
            (F64.fmax
              (F64.fmax (axisSlabMin r.origin.x b.min_coords.x b.max_coords.x r.direction.x)
                (axisSlabMin r.origin.y b.min_coords.y b.max_coords.y r.direction.y))
              (axisSlabMin r.origin.z b.min_coords.z b.max_coords.z r.direction.z)) = true) →
        (axisSlabMax o lo hi dv ≠ F64.nan →
          F64.fle
            (F64.fmin
              (F64.fmin (axisSlabMax r.origin.x b.min_coords.x b.max_coords.x r.direction.x)
                (axisSlabMax r.origin.y b.min_coords.y b.max_coords.y r.direction.y))
              (axisSlabMax r.origin.z b.min_coords.z b.max_coords.z r.direction.z))
            (axisSlabMax o lo hi dv) = true) →
        lo ≤ hi → lo ≤ o + dv * q ∧ o + dv * q ≤ hi := by
      intro o lo hi dv hup hdown hlohi
      apply axisMembership o lo hi dv q hlohi
      · by_cases hn : axisSlabMin o lo hi dv = F64.nan
        · exact Or.inl hn
        · exact Or.inr (F64.fle_trans (hup hn) hle1)
      · by_cases hn : axisSlabMax o lo hi dv = F64.nan
        · exact Or.inl hn
        · exact Or.inr (F64.fle_trans hle2 (hdown hn))
    have hax := axm r.origin.x b.min_coords.x b.max_coords.x r.direction.x
      (fun hn =>
        F64.fle_trans (F64.fle_fmax_left _ hn)
          (F64.fle_fmax_left _ (fun hc => hn ((F64.fmax_nan_iff _ _).mp hc).1)))
      (fun hn =>
        F64.fle_trans
          (F64.fmin_fle_left _ (fun hc => hn ((F64.fmin_nan_iff _ _).mp hc).1))
          (F64.fmin_fle_left _ hn))
      hv1
    have hay := axm r.origin.y b.min_coords.y b.max_coords.y r.direction.y
      (fun hn =>
        F64.fle_trans (F64.fle_fmax_right _ hn)
          (F64.fle_fmax_left _ (fun hc => hn ((F64.fmax_nan_iff _ _).mp hc).2)))
      (fun hn =>
        F64.fle_trans
          (F64.fmin_fle_left _ (fun hc => hn ((F64.fmin_nan_iff _ _).mp hc).2))
          (F64.fmin_fle_right _ hn))
      hv2
    have haz := axm r.origin.z b.min_coords.z b.max_coords.z r.direction.z
      (fun hn => F64.fle_fmax_right _ hn)
      (fun hn => F64.fmin_fle_right _ hn)
      hv3
    exact key q hq ⟨hax.1, hax.2, hay.1, hay.2, haz.1, haz.2⟩
  cases hmin : r.slabTmin b with
  | nan =>
    rw [slabTmin_eq] at hmin
    rcases (F64.fmax_nan_iff _ _).mp hmin with ⟨h12, h3⟩
    rcases (F64.fmax_nan_iff _ _).mp h12 with ⟨h1, h2⟩
    exact hdirnonzero ⟨axisSlabMin_nan_imp h1, axisSlabMin_nan_imp h2, axisSlabMin_nan_imp h3⟩
  | pinf =>
    have htmax : r.slabTmax b = F64.pinf := by
      by_contra hc
      have hflt : F64.flt (r.slabTmax b) F64.pinf = true :=
        (F64.flt_pinf_iff _).mpr ⟨htmaxnan, hc⟩
      exact g2 (by rw [hmin]; exact hflt)
    rw [slabTmax_eq] at htmax
    have h1 := F64.fmin_eq_pinf htmax
    have hxy : (axisSlabMax r.origin.x b.min_coords.x b.max_coords.x r.direction.x = F64.pinf ∨
          axisSlabMax r.origin.x b.min_coords.x b.max_coords.x r.direction.x = F64.nan) ∧
        (axisSlabMax r.origin.y b.min_coords.y b.max_coords.y r.direction.y = F64.pinf ∨
          axisSlabMax r.origin.y b.min_coords.y b.max_coords.y r.direction.y = F64.nan) := by
      rcases h1.1 with h | h
      · exact F64.fmin_eq_pinf h
      · rcases (F64.fmin_nan_iff _ _).mp h with ⟨ha, hb⟩
        exact ⟨Or.inr ha, Or.inr hb⟩
    exact hdirnonzero
      ⟨axisSlabMax_pinf_or_nan_imp hxy.1,
       axisSlabMax_pinf_or_nan_imp hxy.2,
       axisSlabMax_pinf_or_nan_imp h1.2⟩
  | ninf =>
    cases hmax : r.slabTmax b with
    | nan => exact htmaxnan hmax
    | ninf => exact g1 (by rw [hmax]; rfl)
    | pinf =>
      exact finish 0 (le_refl 0) (by rw [hmin]; rfl) (by rw [hmax]; rfl)
    | fin v =>
      have hv0 : 0 ≤ v := by
        rw [hmax] at g1
        simpa [F64.flt, not_lt] using g1
      exact finish v hv0 (by rw [hmin]; rfl) (by rw [hmax]; simp [F64.fle])
  | fin a =>
    cases hmax : r.slabTmax b with
    | nan => exact htmaxnan hmax
    | ninf => exact g1 (by rw [hmax]; rfl)
    | pinf =>
      exact finish (max a 0) (le_max_right a 0)
        (by rw [hmin]; simp [F64.fle, le_max_left]) (by rw [hmax]; rfl)
    | fin v =>
      have hv0 : 0 ≤ v := by
        rw [hmax] at g1
        simpa [F64.flt, not_lt] using g1
      have hav : a ≤ v := by
        rw [hmax, hmin] at g2
        simpa [F64.flt, not_lt] using g2
      exact finish (max a 0) (le_max_right a 0)
        (by rw [hmin]; simp [F64.fle, le_max_left])
        (by rw [hmax]; simp [F64.fle, max_le hav hv0])

/-- C7: `intersect_aabb` returns `None` exactly when `tmax < 0` (box behind
the origin) or `tmin > tmax` (disjoint slabs), where `tmin`/`tmax` are the
max-of-entries / min-of-exits slab reductions; otherwise the reported
distance is `tmax` when `tmin < 0` (origin inside) and `tmin` when
`tmin >= 0`.  Moreover a ray whose origin lies strictly inside the box
always gets a hit at a nonnegative distance, and a box that lies entirely
behind the origin (every box point strictly in the half-space opposite the
direction; the box satisfying the spec's min <= max invariant) gets no hit.
All comparisons are the IEEE ones of the `F64` model, so zero direction
components and the resulting infinities are covered. -/
theorem intersect_aabb_characterisation (r : Ray) (b : Aabb) :
    (r.intersect_aabb b = none ↔
      (F64.flt (r.slabTmax b) (F64.fin 0) = true ∨
        F64.flt (r.slabTmax b) (r.slabTmin b) = true)) ∧
    (∀ res, r.intersect_aabb b = some res →
      res.t = if F64.flt (r.slabTmin b) (F64.fin 0) = true then r.slabTmax b
        else r.slabTmin b) ∧
    (b.strictlyContains r.origin →
      ∃ res, r.intersect_aabb b = some res ∧ F64.fle (F64.fin 0) res.t = true) ∧
    (b.valid → (∀ p, b.containsPoint p → (p - r.origin).dot r.direction < 0) →
      r.intersect_aabb b = none) := by
  refine ⟨?_, ?_, intersect_aabb_inside r b, intersect_aabb_behind r b⟩
  · simp only [Ray.intersect_aabb]
    split_ifs with h1 h2 h3 <;> simp_all
  · intro res h
    simp only [Ray.intersect_aabb] at h
    split_ifs at h with h1 h2 h3
    · rw [if_pos h3]
      cases h
      rfl
    · rw [if_neg h3]
      cases h
      rfl

/-- Witness for C7's theorem: the origin-centred unit-ish ray inside the box
`[-1,1]^3` gets a nonnegative hit, and the box `[-3,-2]^3`, which lies
entirely behind that origin for direction `(1,1,1)`, gets none. -/
theorem intersect_aabb_characterisation_witness :
    (∃ res,
      Ray.intersect_aabb ⟨⟨0, 0, 0⟩, ⟨1, 1, 1⟩⟩ ⟨⟨-1, -1, -1⟩, ⟨1, 1, 1⟩⟩ = some res ∧
        F64.fle (F64.fin 0) res.t = true) ∧
    Ray.intersect_aabb ⟨⟨0, 0, 0⟩, ⟨1, 1, 1⟩⟩ ⟨⟨-3, -3, -3⟩, ⟨-2, -2, -2⟩⟩ = none := by
  constructor
  · exact
      (intersect_aabb_characterisation ⟨⟨0, 0, 0⟩, ⟨1, 1, 1⟩⟩ ⟨⟨-1, -1, -1⟩, ⟨1, 1, 1⟩⟩).2.2.1
        (by exact ⟨by norm_num, by norm_num, by norm_num, by norm_num, by norm_num, by norm_num⟩)
  · apply
      (intersect_aabb_characterisation ⟨⟨0, 0, 0⟩, ⟨1, 1, 1⟩⟩ ⟨⟨-3, -3, -3⟩, ⟨-2, -2, -2⟩⟩).2.2.2
    · exact ⟨by norm_num, by norm_num, by norm_num⟩
    · intro p hp
      unfold Aabb.containsPoint at hp
      obtain ⟨a1, a2, a3, a4, a5, a6⟩ := hp
      rw [vecSubDef]
      unfold Vector3d.dot
      dsimp only at a1 a2 a3 a4 a5 a6 ⊢
      linarith
